import Mathlib

/-!
Verification development for the qobuz-nonsense analysis pipeline.

The definitions below are a shallow embedding of the Python sources
`scripts/bot_score.py` and `scripts/collect.py`:
* Python floats are modelled as exact rationals.  Every score the scorer can
  produce is an integer multiple of 1/100, and every threshold compared
  against is a short decimal, so exact rational arithmetic agrees with IEEE
  double arithmetic at every comparison the code performs.  The one value
  where IEEE rounding is observable — the burst record's `hours_span` —
  is modelled by explicit double rounding (`roundToDouble`, see `burstAt`).
* `difflib.SequenceMatcher(None, a, b).ratio()` is modelled by `smMatchSum`
  (total size of the matching blocks, including the autojunk heuristic that
  drops popular elements of `b` when `len(b) >= 200`).
* `datetime.fromisoformat` is modelled by `fromisoCore` on the extended
  ISO-8601 forms the pipeline produces (`YYYY-MM-DD[<sep>HH[:MM[:SS[.f+]]]]`
  with an optional `+HH:MM`/`-HH:MM` offset); the code first replaces
  `"Z"` with `"+00:00"`, which `replaceZ` mirrors.
-/

/-- Python `round(x, n)` rounds half to even.  `pyRoundInt` is that rule for
a rational against the integers. -/
def pyRoundInt (z : ℚ) : ℤ :=
  let f : ℤ := ⌊z⌋
  let r : ℚ := z - f
  if r < 1/2 then f
  else if 1/2 < r then f + 1
  else if f % 2 = 0 then f else f + 1

/-- Python `round(x, 3)`. -/
def pyRound3 (q : ℚ) : ℚ := (pyRoundInt (q * 1000) : ℚ) / 1000

/-- Python `round(x, 1)`. -/
def pyRound1 (q : ℚ) : ℚ := (pyRoundInt (q * 10) : ℚ) / 10

/-- Whitespace as recognised by Python `str.strip()` (ASCII portion; the
corpus never contains the exotic Unicode space code points). -/
def isPySpace (c : Char) : Bool :=
  c = ' ' || c = '\t' || c = '\n' || c = '\r' || c = '\x0b' || c = '\x0c'

/-- Truthiness of Python `s.strip()`: the string has a non-whitespace char. -/
def stripNonempty (s : String) : Bool :=
  s.data.any (fun c => !(isPySpace c))

/-- Python `str.lower()` (ASCII case folding; every keyword that is searched
for is pure ASCII). -/
def pyLower (s : String) : String := ⟨s.data.map Char.toLower⟩

/-- Holds when applied as `leadsWith n h` when `n` is an initial segment of `h`. -/
def leadsWith : List Char → List Char → Bool
  | [], _ => true
  | _ :: _, [] => false
  | c :: n, d :: h => c = d && leadsWith n h

/-- Python substring containment `n in h`. -/
def occursIn (n h : List Char) : Bool :=
  h.tails.any (fun t => leadsWith n t)

/-! ### difflib.SequenceMatcher -/

/-- The autojunk heuristic of `SequenceMatcher`: when `len(b) >= 200`,
elements occurring more than `len(b) // 100 + 1` times in `b` are dropped
from the index `b2j`. -/
def smPopular (b : List Char) (c : Char) : Bool :=
  decide (200 ≤ b.length) && decide (b.length / 100 + 1 < b.count c)

/-- The index `b2j[c]`: ascending list of positions of `c` in `b`, with popular
elements purged. -/
def smB2J (b : List Char) (c : Char) : List ℕ :=
  if smPopular b c then []
  else (List.range b.length).filter (fun j => b.getD j ' ' = c)

/-- Running best match of the `find_longest_match` scan. -/
structure SMBest where
  besti : ℕ
  bestj : ℕ
  bestsize : ℕ
deriving DecidableEq, Repr

/-- The value `newj2len[j] = j2len.get(j-1, 0) + 1` that the
`find_longest_match` scan stores for a matched pair `(i, j)`: row by row the
dictionary holds, for each `j` with `a[i] == b[j]`, the length of the
diagonal run of matches ending at `(i, j)` that stays inside
`a[alo:]`/`b[blo:]` and only crosses positions indexed by `b2j` (popular
elements are absent from `b2j`, so a run cannot cross them).  `smK` computes
that run length directly — the same number, by induction over the rows —
with recursion depth bounded by the run length.  Fuel is `i`, which bounds
the run. -/
def smK (a b : List Char) (alo blo : ℕ) : ℕ → ℕ → ℕ → ℕ
  | 0, _, _ => 1
  | fuel + 1, i, j =>
    if alo < i ∧ blo < j ∧ !(smPopular b (b.getD (j - 1) ' ')) ∧
        a.getD (i - 1) ' ' = b.getD (j - 1) ' ' then
      smK a b alo blo fuel (i - 1) (j - 1) + 1
    else 1

/-- One row of the `find_longest_match` scan: fold over the positions `js`
of `a[i]` inside `b`, updating the best (strictly longer) match. -/
def smRow (a b : List Char) (alo blo i : ℕ) (js : List ℕ) (best : SMBest) :
    SMBest :=
  js.foldl
    (fun best j =>
      let k := smK a b alo blo i i j
      if best.bestsize < k then ⟨i + 1 - k, j + 1 - k, k⟩ else best)
    best

/-- The scan phase of `find_longest_match` over `a[alo:ahi]` and
`b[blo:bhi]`: rows in ascending `i`, positions in ascending `j` (Python's
`continue`/`break` on the ascending `b2j` list is the `blo ≤ j < bhi`
filter). -/
def smScan (a b : List Char) (alo ahi blo bhi : ℕ) : SMBest :=
  (List.range' alo (ahi - alo)).foldl
    (fun best i =>
      let js := (smB2J b (a.getD i ' ')).filter
        (fun j => decide (blo ≤ j) && decide (j < bhi))
      smRow a b alo blo i js best)
    ⟨alo, blo, 0⟩

/-- Extend the best match to the left while the neighbouring characters are
equal (the junk set is empty, so the two left-extension loops of the source
collapse into this one). -/
def smExtLeft (a b : List Char) (alo blo : ℕ) :
    ℕ → ℕ → ℕ → ℕ → ℕ × ℕ × ℕ
  | 0, bi, bj, sz => (bi, bj, sz)
  | fuel + 1, bi, bj, sz =>
    if alo < bi ∧ blo < bj ∧ a.getD (bi - 1) ' ' = b.getD (bj - 1) ' ' then
      smExtLeft a b alo blo fuel (bi - 1) (bj - 1) (sz + 1)
    else (bi, bj, sz)

/-- Extend the best match to the right while the next characters are
equal. -/
def smExtRight (a b : List Char) (ahi bhi : ℕ) :
    ℕ → ℕ → ℕ → ℕ → ℕ
  | 0, _, _, sz => sz
  | fuel + 1, bi, bj, sz =>
    if bi + sz < ahi ∧ bj + sz < bhi ∧ a.getD (bi + sz) ' ' = b.getD (bj + sz) ' ' then
      smExtRight a b ahi bhi fuel bi bj (sz + 1)
    else sz

/-- Model of `SequenceMatcher.find_longest_match(alo, ahi, blo, bhi)`. -/
def smFLM (a b : List Char) (alo ahi blo bhi : ℕ) : ℕ × ℕ × ℕ :=
  let best := smScan a b alo ahi blo bhi
  let l := smExtLeft a b alo blo best.besti best.besti best.bestj best.bestsize
  let sz := smExtRight a b ahi bhi ahi l.1 l.2.1 l.2.2
  (l.1, l.2.1, sz)

/-- Total size of the matching blocks (the quantity summed by `ratio()`);
fuel-based recursion mirroring the work queue of `get_matching_blocks`
(each subproblem strictly shrinks, so the initial fuel never runs out). -/
def smSum (a b : List Char) : ℕ → ℕ → ℕ → ℕ → ℕ → ℕ
  | 0, _, _, _, _ => 0
  | fuel + 1, alo, ahi, blo, bhi =>
    let t := smFLM a b alo ahi blo bhi
    let i := t.1
    let j := t.2.1
    let k := t.2.2
    if k = 0 then 0
    else
      k + (if alo < i ∧ blo < j then smSum a b fuel alo i blo j else 0)
        + (if i + k < ahi ∧ j + k < bhi then smSum a b fuel (i + k) ahi (j + k) bhi else 0)

/-- The quantity `M`: total size of all matching blocks of `SequenceMatcher(None, a, b)`. -/
def smMatchSum (a b : List Char) : ℕ :=
  smSum a b (a.length + b.length + 1) 0 a.length 0 b.length

/-- The similarity ratio `2*M/(len(a)+len(b))` as an exact rational. -/
def ratioQ (a b : List Char) : ℚ :=
  2 * (smMatchSum a b : ℚ) / ((a.length : ℚ) + (b.length : ℚ))

/-- The comparison `ratio() > 0.75` the scorer performs; with the lengths
positive this is exactly `8*M > 3*(len(a)+len(b))`, and IEEE double division
cannot disturb the comparison at these magnitudes. -/
def ratioGT (a b : List Char) : Bool :=
  decide (3 * (a.length + b.length) < 8 * smMatchSum a b)

/-! ### datetime.fromisoformat -/

/-- Result of parsing an ISO timestamp: naive calendar fields plus the
optional UTC offset in minutes (an aware datetime carries `some offset`). -/
structure PyDatetime where
  year : ℕ
  month : ℕ
  day : ℕ
  hour : ℕ
  minute : ℕ
  second : ℕ
  micro : ℕ
  tz : Option ℤ
deriving DecidableEq, Repr

def pyEpoch : PyDatetime := ⟨1, 1, 1, 0, 0, 0, 0, none⟩

def isLeapYear (y : ℕ) : Bool :=
  y % 4 = 0 && (y % 100 ≠ 0 || y % 400 = 0)

def daysInMonth (y m : ℕ) : ℕ :=
  if m = 2 then (if isLeapYear y then 29 else 28)
  else if m = 4 ∨ m = 6 ∨ m = 9 ∨ m = 11 then 30
  else 31

def daysBeforeYear (y : ℕ) : ℕ :=
  365 * (y - 1) + ((y - 1) / 4 + (y - 1) / 400 - (y - 1) / 100)

def daysBeforeMonth (y m : ℕ) : ℕ :=
  (List.range' 1 (m - 1)).foldl (fun acc mm => acc + daysInMonth y mm) 0

/-- Model of `date.toordinal()`: day number with 0001-01-01 as day 1. -/
def toOrdinal (dt : PyDatetime) : ℕ :=
  daysBeforeYear dt.year + daysBeforeMonth dt.year dt.month + dt.day

/-- Microseconds of the naive (wall-clock) value since the epoch. -/
def naiveMicros (dt : PyDatetime) : ℕ :=
  ((toOrdinal dt) * 86400 + dt.hour * 3600 + dt.minute * 60 + dt.second) * 1000000
    + dt.micro

/-- The instant a datetime denotes (aware values shifted by their offset;
naive values read as-is).  Python refuses to compare naive with aware
datetimes — a mixed candidate corpus would abort the run with a TypeError —
so on every corpus the program completes (all-aware or all-naive) this
total order agrees with Python's comparisons. -/
def instantMicros (dt : PyDatetime) : ℤ :=
  (naiveMicros dt : ℤ) - (dt.tz.getD 0) * 60 * 1000000

/-- The UTC hour of the instant (what the spec calls the timestamp's UTC
hour; for an aware datetime with nonzero offset this differs from the
`hour` field the code inspects). -/
def utcHour (dt : PyDatetime) : ℤ :=
  ((instantMicros dt) % 86400000000) / 3600000000

/-- Read exactly `n` ASCII digits, most significant first. -/
def readNDigits : ℕ → ℕ → List Char → Option (ℕ × List Char)
  | 0, acc, l => some (acc, l)
  | n + 1, acc, l =>
    match l with
    | c :: r => if c.isDigit then readNDigits n (acc * 10 + (c.toNat - 48)) r else none
    | [] => none

def expectChar (c : Char) : List Char → Option (List Char)
  | d :: r => if d = c then some r else none
  | [] => none

/-- Parse a trailing `+HH:MM` / `-HH:MM` offset (or nothing). -/
def parseOffsetEnd (l : List Char) : Option (Option ℤ) :=
  match l with
  | [] => some none
  | sign :: r =>
    if sign = '+' ∨ sign = '-' then
      match readNDigits 2 0 r with
      | some (hh, r1) =>
        match expectChar ':' r1 with
        | some r2 =>
          match readNDigits 2 0 r2 with
          | some (mm, r3) =>
            if r3 = [] ∧ hh ≤ 23 ∧ mm ≤ 59 then
              some (some ((if sign = '-' then -1 else 1) * (hh * 60 + mm : ℕ)))
            else none
          | none => none
        | none => none
      | none => none
    else none

/-- Parse `.digits` / `,digits` fractional seconds (1–6 digits), scaled to
microseconds; returns 0 microseconds when no fraction is present. -/
def parseFrac (l : List Char) : Option (ℕ × List Char) :=
  match l with
  | c :: r =>
    if c = '.' ∨ c = ',' then
      let ds := r.takeWhile Char.isDigit
      if ds = [] ∨ 6 < ds.length then none
      else
        some ((ds.foldl (fun acc d => acc * 10 + (d.toNat - 48)) 0) * 10 ^ (6 - ds.length),
              r.drop ds.length)
    else some (0, l)
  | [] => some (0, [])

/-- Parse the time-of-day part `HH[:MM[:SS[.ffffff]]]` followed by an
optional offset. -/
def parseTimePart (y mo d : ℕ) (l : List Char) : Option PyDatetime :=
  match readNDigits 2 0 l with
  | none => none
  | some (hh, r1) =>
    if 23 < hh then none else
    match r1 with
    | [] => some ⟨y, mo, d, hh, 0, 0, 0, none⟩
    | ':' :: r2 =>
      match readNDigits 2 0 r2 with
      | none => none
      | some (mi, r3) =>
        if 59 < mi then none else
        match r3 with
        | ':' :: r4 =>
          match readNDigits 2 0 r4 with
          | none => none
          | some (ss, r5) =>
            if 59 < ss then none else
            match parseFrac r5 with
            | none => none
            | some (us, r6) =>
              match parseOffsetEnd r6 with
              | some off => some ⟨y, mo, d, hh, mi, ss, us, off⟩
              | none => none
        | _ =>
          match parseOffsetEnd r3 with
          | some off => some ⟨y, mo, d, hh, mi, 0, 0, off⟩
          | none => none
    | _ =>
      match parseOffsetEnd r1 with
      | some off => some ⟨y, mo, d, hh, 0, 0, 0, off⟩
      | none => none

/-- Model of `datetime.fromisoformat` on the extended format: `YYYY-MM-DD`, optionally
followed by a single separator character and a time part. -/
def fromisoCore (l : List Char) : Option PyDatetime :=
  match readNDigits 4 0 l with
  | none => none
  | some (y, r1) =>
    match expectChar '-' r1 with
    | none => none
    | some r2 =>
      match readNDigits 2 0 r2 with
      | none => none
      | some (mo, r3) =>
        match expectChar '-' r3 with
        | none => none
        | some r4 =>
          match readNDigits 2 0 r4 with
          | none => none
          | some (d, r5) =>
            if y = 0 ∨ mo = 0 ∨ 12 < mo ∨ d = 0 ∨ daysInMonth y mo < d then none
            else
              match r5 with
              | [] => some ⟨y, mo, d, 0, 0, 0, 0, none⟩
              | _ :: r6 => parseTimePart y mo d r6

/-- The `date_str.replace("Z", "+00:00")` performed by both the scorer and the
burst detector before parsing. -/
def replaceZ : List Char → List Char
  | [] => []
  | c :: r =>
    if c = 'Z' then '+' :: '0' :: '0' :: ':' :: '0' :: '0' :: replaceZ r
    else c :: replaceZ r

/-- Model of `datetime.fromisoformat(s.replace("Z", "+00:00"))`, `None` when the call
raises. -/
def parseDate (s : String) : Option PyDatetime :=
  fromisoCore (replaceZ s.data)

/-! ### The item (post) record -/

/-- One collected item, with the fields the core reads.  Every item the
collector produces carries an `id` (`make_id` always populates it), so `id`
is a plain string; the optional fields mirror `post.get(...)` defaults. -/
structure Post where
  id : String
  source : String
  title : Option String
  text : Option String
  author : String
  author_age_days : Option ℤ
  author_karma : Option ℤ
  date : Option String
  narratives : List String
  bot_score : ℚ
  campaign_burst : Bool
deriving DecidableEq, Repr

/-- The string `(post.get("text") or "") + " " + (post.get("title") or "")` as built by
`score_account`. -/
def combinedText (p : Post) : String :=
  (p.text.getD "") ++ " " ++ (p.title.getD "")

/-! ### Bot suspicion scorer (`scripts/bot_score.py`) -/

/-- Weight of each signal in hundredths of a point. -/
def sigWeightNum (s : String) : ℕ :=
  if s = "very_new_account" then 35
  else if s = "new_account" then 20
  else if s = "very_low_karma" then 25
  else if s = "low_karma" then 15
  else if s = "new_and_low_karma" then 10
  else if s = "odd_hour_post" then 8
  else if s = "copy_paste_campaign" then 35
  else if s = "similar_to_other_posts" then 15
  else if s = "username_pattern" then 10
  else if s = "numeric_username_suffix" then 8
  else 0

/-- Weight of each signal as the rational the code adds. -/
def sigWeight (s : String) : ℚ := (sigWeightNum s : ℚ) / 100

/-- Position of each signal's block in the fixed evaluation order of
`score_account`. -/
def sigTier (s : String) : ℕ :=
  if s = "very_new_account" ∨ s = "new_account" then 0
  else if s = "very_low_karma" ∨ s = "low_karma" then 1
  else if s = "new_and_low_karma" then 2
  else if s = "odd_hour_post" then 3
  else if s = "copy_paste_campaign" ∨ s = "similar_to_other_posts" then 4
  else if s = "username_pattern" ∨ s = "numeric_username_suffix" then 5
  else 6

/-- The controlled vocabulary of signal names. -/
def signalNames : List String :=
  ["very_new_account", "new_account", "very_low_karma", "low_karma",
   "new_and_low_karma", "odd_hour_post", "copy_paste_campaign",
   "similar_to_other_posts", "username_pattern", "numeric_username_suffix"]

/-! The running score is carried in integer hundredths of a point: every
increment the source adds (`0.35`, `0.2`, `0.25`, `0.15`, `0.1`, `0.08`) is
an exact multiple of `0.01`, the running float sum stays well inside the
range where IEEE doubles represent these sums faithfully for every
comparison and for the final 3-decimal rounding, so the integer scale is an
exact model; `score_account` converts back to the rational the float
denotes. -/

/-- Account-age block (runs only under `source == "reddit"`). -/
def ageBlock (age : Option ℤ) (st : ℕ × List String) : ℕ × List String :=
  match age with
  | some a =>
    if a < 30 then (st.1 + 35, st.2 ++ ["very_new_account"])
    else if a < 90 then (st.1 + 20, st.2 ++ ["new_account"])
    else st
  | none => st

/-- Karma block (runs only under `source == "reddit"`). -/
def karmaBlock (karma : Option ℤ) (st : ℕ × List String) : ℕ × List String :=
  match karma with
  | some k =>
    if k < 10 then (st.1 + 25, st.2 ++ ["very_low_karma"])
    else if k < 100 then (st.1 + 15, st.2 ++ ["low_karma"])
    else st
  | none => st

/-- Combined "new account + low karma" amplifier block. -/
def comboBlock (age karma : Option ℤ) (st : ℕ × List String) : ℕ × List String :=
  match age, karma with
  | some a, some k =>
    if a < 90 ∧ k < 50 then (st.1 + 10, st.2 ++ ["new_and_low_karma"])
    else st
  | _, _ => st

/-- The three identity blocks, gated on the source being Reddit. -/
def identityBlocks (p : Post) (st : ℕ × List String) : ℕ × List String :=
  if p.source = "reddit" then
    comboBlock p.author_age_days p.author_karma
      (karmaBlock p.author_karma (ageBlock p.author_age_days st))
  else st

/-- The guard `if date_str:` followed by the guarded `fromisoformat` call: the datetime
the temporal block sees, `none` when the field is missing, empty, or
unparseable. -/
def temporalParse (p : Post) : Option PyDatetime :=
  match p.date with
  | none => none
  | some s => if s = "" then none else parseDate s

/-- Odd-posting-hour block. -/
def temporalBlock (p : Post) (st : ℕ × List String) : ℕ × List String :=
  match temporalParse p with
  | some dt =>
    if 2 ≤ dt.hour ∧ dt.hour ≤ 6 then (st.1 + 8, st.2 ++ ["odd_hour_post"])
    else st
  | none => st

/-- The loop body of the similarity scan: the posts counted as similar. -/
def similarPred (p : Post) (text : String) (other : Post) : Bool :=
  !(other.id == p.id) &&
    stripNonempty (combinedText other) &&
    ratioGT (text.data.take 300) ((combinedText other).data.take 300)

/-- The `similar_count` loop over the corpus. -/
def simCount (p : Post) (all_posts : List Post) : ℕ :=
  all_posts.countP (similarPred p (combinedText p))

/-- Near-duplicate block. -/
def similarityBlock (p : Post) (all_posts : List Post) (st : ℕ × List String) :
    ℕ × List String :=
  let text := combinedText p
  if stripNonempty text && decide (50 < text.length) then
    let c := simCount p all_posts
    if 3 ≤ c then (st.1 + 35, st.2 ++ ["copy_paste_campaign"])
    else if 1 ≤ c then (st.1 + 15, st.2 ++ ["similar_to_other_posts"])
    else st
  else st

/-- Model of `re.match` on the camel pattern (two capitalised words then 3+ digits): because the three
character classes are pairwise disjoint, the backtracking regex is equivalent
to this maximal-munch matcher. -/
def usernameCamel (l : List Char) : Bool :=
  match l with
  | c :: r =>
    decide ('A' ≤ c) && decide (c ≤ 'Z') &&
      (let lo1 := r.takeWhile (fun d => decide ('a' ≤ d) && decide (d ≤ 'z'))
       let r1 := r.drop lo1.length
       !(lo1 == []) &&
         match r1 with
         | c2 :: r2 =>
           decide ('A' ≤ c2) && decide (c2 ≤ 'Z') &&
             (let lo2 := r2.takeWhile (fun d => decide ('a' ≤ d) && decide (d ≤ 'z'))
              let r3 := r2.drop lo2.length
              let ds := r3.takeWhile Char.isDigit
              !(lo2 == []) && decide (3 ≤ ds.length) && r3.drop ds.length == [])
         | [] => false)
  | [] => false

/-- Model of `re.match` on the numeric-tail pattern: the string ends in at least six ASCII
digits and contains no newline (`.` does not match a newline). -/
def usernameNumericTail (l : List Char) : Bool :=
  decide (6 ≤ l.length) && (l.drop (l.length - 6)).all Char.isDigit &&
    !(l.contains '\n')

/-- Username-pattern block. -/
def usernameBlock (author : String) (st : ℕ × List String) : ℕ × List String :=
  if author = "" then st
  else if usernameCamel author.data then (st.1 + 10, st.2 ++ ["username_pattern"])
  else if usernameNumericTail author.data then
    (st.1 + 8, st.2 ++ ["numeric_username_suffix"])
  else st

/-- The running `(score, signals)` state after all signal blocks, before the
final clamp and rounding, the score in hundredths. -/
def scoreParts (p : Post) (all_posts : List Post) : ℕ × List String :=
  usernameBlock p.author
    (similarityBlock p all_posts
      (temporalBlock p
        (identityBlocks p (0, []))))

/-- Model of `score_account(post, all_posts)`: final clamped, 3-decimal-rounded score
(`round(min(score, 1.0), 3)`) plus the ordered signal list. -/
def score_account (p : Post) (all_posts : List Post) : ℚ × List String :=
  let st := scoreParts p all_posts
  (pyRound3 (min ((st.1 : ℚ) / 100) 1), st.2)

/-! ### Direction classifier (`scripts/collect.py`) -/

def CRITICISM_KEYWORDS : List String :=
  ["not working", "broken", "bug", "crash", "issue", "problem",
   "complaint", "cancel", "refund", "leaving qobuz", "switched from qobuz",
   "worse than", "qobuz sucks", "disappointed", "poor customer",
   "missing album", "missing artist", "catalog gap", "no support",
   "customer service", "billing", "overpriced", "price hike",
   "too expensive", "app is bad", "app is terrible", "qobuz lacks"]

def PRO_KEYWORDS : List String :=
  ["switch to qobuz", "switched to qobuz", "switching to qobuz",
   "recommend qobuz", "qobuz is better", "moved to qobuz",
   "love qobuz", "qobuz over", "best streaming", "from spotify to qobuz"]

/-- The `is_critical` flag: some criticism keyword occurs in the lowercased text. -/
def hasCriticalSignal (text : String) : Bool :=
  CRITICISM_KEYWORDS.any (fun kw => occursIn kw.data (pyLower text).data)

/-- The `is_pro` flag: a pro keyword occurs, or the switch-recommendation narrative
label is present. -/
def hasProSignal (text : String) (narratives : List String) : Bool :=
  PRO_KEYWORDS.any (fun kw => occursIn kw.data (pyLower text).data) ||
    narratives.contains "switch-recommendation"

/-- Model of `detect_direction(text, narratives)`. -/
def detect_direction (text : String) (narratives : List String) : String :=
  if text = "" then "neutral"
  else if hasCriticalSignal text && !(hasProSignal text narratives) then "critical"
  else if hasProSignal text narratives then "pro"
  else "neutral"

/-! ### Campaign burst detector (`scripts/collect.py`) -/

/-- Powers of two as rationals, with integer exponent. -/
def qpow2 (e : ℤ) : ℚ :=
  if 0 ≤ e then ((2 : ℚ) ^ e.toNat) else ((2 : ℚ) ^ (-e).toNat)⁻¹

/-- Floor of the base-2 logarithm of a positive rational: the unique `e`
with `2^e ≤ q < 2^(e+1)` (the two-candidate test corrects the estimate from
the bit lengths of numerator and denominator). -/
def floorLog2Q (q : ℚ) : ℤ :=
  let e0 : ℤ := (Nat.log2 q.num.toNat : ℤ) - (Nat.log2 q.den : ℤ)
  if qpow2 e0 ≤ q then e0 else e0 - 1

/-- The positive case of `roundToDouble`: scale the value into
`[2^52, 2^53)`, round the 53-bit significand to the nearest integer with
ties to even (`pyRoundInt` is exactly that rule), scale back. -/
def roundPosDouble (q : ℚ) : ℚ :=
  let e := floorLog2Q q
  ((pyRoundInt (q * qpow2 (52 - e)) : ℚ)) * qpow2 (e - 52)

/-- Round a rational to the value of the nearest IEEE-754 double
(round-to-nearest, ties to even).  Every quantity the pipeline feeds
through this is well inside the normal range, so subnormals and overflow
never arise and are not modelled. -/
def roundToDouble (q : ℚ) : ℚ :=
  if q = 0 then 0
  else if 0 < q then roundPosDouble q
  else -(roundPosDouble (-q))

/-- One burst event dict: `{narrative, count, start, end, hours_span}`.
The source stores `start`/`end` as `isoformat()` strings; `isoformat` is
injective on parsed datetimes, so the records are modelled by the datetimes
themselves. -/
structure Burst where
  narrative : String
  count : ℕ
  start : PyDatetime
  end_ : PyDatetime
  hours_span : ℚ
deriving DecidableEq, Repr

/-- A throwaway post used only as the `getD` default inside total functions;
indices are always in range when it matters. -/
def dfltPost : Post :=
  ⟨"", "", none, none, "", none, none, none, [], 0, false⟩

/-- The constant `BOT_THRESHOLD = 0.4`, written with `mkRat` so the comparison against it
evaluates. -/
def BOT_THRESHOLD : ℚ := mkRat 2 5

/-- Candidate filter: `p.get("narratives") and p.get("bot_score", 0) >= 0.4
and p.get("date")`. -/
def candidateFilter (p : Post) : Bool :=
  !(p.narratives == []) && decide (BOT_THRESHOLD ≤ p.bot_score) && !(p.date.getD "" == "")

/-- Candidates paired with their parsed dates (`dated`), unparseable dates
dropped by the `try/except`. -/
def datedCandidates (posts : List Post) : List (PyDatetime × Post) :=
  (posts.filter candidateFilter).filterMap
    (fun p => (parseDate (p.date.getD "")).map (fun dt => (dt, p)))

/-- Sort key: the instant a parsed timestamp denotes. -/
def instKey (x : PyDatetime × Post) : ℤ := instantMicros x.1

/-- The comparison `dated.sort(key=...)` sorts by. -/
def instLE (x y : PyDatetime × Post) : Prop := instKey x ≤ instKey y

instance : DecidableRel instLE := fun a b => Int.decLe (instKey a) (instKey b)

/-- The `dated` list after the stable sort by timestamp. -/
def sortedDated (posts : List Post) : List (PyDatetime × Post) :=
  List.insertionSort instLE (datedCandidates posts)

/-- The set of narrative labels appearing among the dated candidates
(Python builds a `set`; iteration order is modelled by `dedup` order, which
only affects the order of the returned burst list, not any per-narrative
content). -/
def narrativesOf (dated : List (PyDatetime × Post)) : List String :=
  (dated.flatMap (fun x => x.2.narratives)).dedup

/-- The time-sorted same-label subset for one narrative. -/
def narrSubset (dated : List (PyDatetime × Post)) (n : String) :
    List (PyDatetime × Post) :=
  dated.filter (fun x => x.2.narratives.contains n)

/-- The 72-hour window anchored at index `i` of the same-label subset:
`start_dt <= dt <= start_dt + timedelta(hours=72)` (adding a timedelta keeps
the offset, so the bound is 72h later as an instant). -/
def windowAt (narr : List (PyDatetime × Post)) (i : ℕ) :
    List (PyDatetime × Post) :=
  let s := instantMicros (narr.getD i (pyEpoch, dfltPost)).1
  narr.filter
    (fun x => decide (s ≤ instantMicros x.1) &&
      decide (instantMicros x.1 ≤ s + 259200000000))

/-- Model of `max(dt for dt, _ in window)`: Python `max` keeps the first of equal
elements, replacing only on strictly greater. -/
def winEnd (w : List (PyDatetime × Post)) : PyDatetime :=
  match w with
  | [] => pyEpoch
  | x :: r =>
    r.foldl (fun acc y => if instantMicros acc < instantMicros y.1 then y.1 else acc) x.1

/-- The burst record the code emits for narrative `n` at window index `i`.
The `hours_span` field models `round((end - start).total_seconds() / 3600,
1)` operation by operation: the timedelta holds the exact microsecond span,
`total_seconds()` performs one IEEE division by `10^6`, `/ 3600` a second
IEEE division, and `round(_, 1)` rounds the resulting double to one decimal
digit (half to even; these doubles never sit exactly on a decimal tie).
The float the program stores is the double nearest that one-decimal value;
on the reachable span range `[0, 72.0]` that map is injective, so the field
is modelled by the exact one-decimal value. -/
def burstAt (n : String) (narr : List (PyDatetime × Post)) (i : ℕ) : Burst :=
  let startDt := (narr.getD i (pyEpoch, dfltPost)).1
  let w := windowAt narr i
  let e := winEnd w
  { narrative := n, count := w.length, start := startDt, end_ := e,
    hours_span :=
      pyRound1 (roundToDouble ((roundToDouble
        (((instantMicros e - instantMicros startDt : ℤ) : ℚ) / 1000000)) / 3600)) }

/-- The member ids of the window at index `i` (`burst_ids`). -/
def windowIds (narr : List (PyDatetime × Post)) (i : ℕ) : List String :=
  (windowAt narr i).map (fun x => x.2.id)

/-- The sliding-window loop for one narrative: the first index whose window
holds at least `MIN_POSTS = 3` items, if any (`break` fires at the first
such index). -/
def firstWindow (narr : List (PyDatetime × Post)) : Option ℕ :=
  (List.range narr.length).find? (fun i => decide (3 ≤ (windowAt narr i).length))

/-- What one iteration of the narrative loop would emit: the burst record
and the ids to flag, or nothing. -/
def emitAt (dated : List (PyDatetime × Post)) (n : String) :
    Option (Burst × List String) :=
  let narr := narrSubset dated n
  if narr.length < 3 then none
  else
    match firstWindow narr with
    | none => none
    | some i => some (burstAt n narr i, windowIds narr i)

/-- Mark one post: `if p.get("id") in burst_ids: p["campaign_burst"] = True`. -/
def flagPost (ids : List String) (p : Post) : Post :=
  if ids.contains p.id then { p with campaign_burst := true } else p

/-- One iteration of `for narrative in all_narratives`, threading the burst
list and the (mutated) post list; the `already` duplicate check of the
source is reproduced verbatim (it never fires, which is proved below). -/
def stepNarr (dated : List (PyDatetime × Post)) (st : List Burst × List Post)
    (n : String) : List Burst × List Post :=
  match emitAt dated n with
  | none => st
  | some (rec, ids) =>
    if st.1.any (fun b => b.narrative == n && b.start == rec.start) then st
    else (st.1 ++ [rec], st.2.map (flagPost ids))

/-- Model of `detect_campaign_bursts(all_posts)`: returns the burst list and the post
list after the `campaign_burst` flag writes. -/
def detect_campaign_bursts (all_posts : List Post) : List Burst × List Post :=
  let dated := sortedDated all_posts
  (narrativesOf dated).foldl (stepNarr dated) ([], all_posts)

/-- All ids flagged during one run. -/
def runFlaggedIds (all_posts : List Post) : List String :=
  let dated := sortedDated all_posts
  (narrativesOf dated).flatMap
    (fun n => ((emitAt dated n).map Prod.snd).getD [])

/-! ### Signal-list decompositions of the scorer blocks

Each `...List` function names the signals its block appends; the lemmas
below show each block adds exactly these signals and their weights. -/

def ageList (age : Option ℤ) : List String :=
  match age with
  | some a =>
    if a < 30 then ["very_new_account"]
    else if a < 90 then ["new_account"]
    else []
  | none => []

def karmaList (karma : Option ℤ) : List String :=
  match karma with
  | some k =>
    if k < 10 then ["very_low_karma"]
    else if k < 100 then ["low_karma"]
    else []
  | none => []

def comboList (age karma : Option ℤ) : List String :=
  match age, karma with
  | some a, some k => if a < 90 ∧ k < 50 then ["new_and_low_karma"] else []
  | _, _ => []

def identityList (p : Post) : List String :=
  if p.source = "reddit" then
    ageList p.author_age_days ++ karmaList p.author_karma ++
      comboList p.author_age_days p.author_karma
  else []

def tempList (p : Post) : List String :=
  match temporalParse p with
  | some dt => if 2 ≤ dt.hour ∧ dt.hour ≤ 6 then ["odd_hour_post"] else []
  | none => []

def simList (p : Post) (all_posts : List Post) : List String :=
  if stripNonempty (combinedText p) && decide (50 < (combinedText p).length) then
    if 3 ≤ simCount p all_posts then ["copy_paste_campaign"]
    else if 1 ≤ simCount p all_posts then ["similar_to_other_posts"]
    else []
  else []

def userList (author : String) : List String :=
  if author = "" then []
  else if usernameCamel author.data then ["username_pattern"]
  else if usernameNumericTail author.data then ["numeric_username_suffix"]
  else []

def allSignals (p : Post) (all_posts : List Post) : List String :=
  identityList p ++ tempList p ++ simList p all_posts ++ userList p.author

/-- The similar-item count exactly as claim C4 words it: every other corpus
item, excluded only by id, whose truncated-text ratio exceeds 0.75.  The
source additionally skips items whose combined text is whitespace-only;
the difference is the counterexample for C4. -/
def claimSimilarCount (p : Post) (all_posts : List Post) : ℕ :=
  all_posts.countP
    (fun other => !(other.id == p.id) &&
      ratioGT ((combinedText p).data.take 300) ((combinedText other).data.take 300))

instance : IsTotal (PyDatetime × Post) instLE := ⟨fun a b => le_total (instKey a) (instKey b)⟩

instance : IsTrans (PyDatetime × Post) instLE := ⟨fun _ _ _ h h2 => le_trans h h2⟩

/-! ### Concrete inputs for witnesses and counterexamples -/

/-- Scenario 1 of the spec: reddit item, age 5 days, karma 2, hour 14,
short text, neutral username. -/
def scenIdentity : Post :=
  ⟨"p1", "reddit", none, some "hi", "someuser", some 5, some 2,
   some "2025-05-01T14:00:00Z", [], mkRat 0 1, false⟩

/-- Scenario 2 of the spec: the same item posted at 04:00 UTC. -/
def scenOddHour : Post :=
  ⟨"p1", "reddit", none, some "hi", "someuser", some 5, some 2,
   some "2025-05-01T04:00:00Z", [], mkRat 0 1, false⟩

/-- A post whose timestamp parses with a +05:00 offset: local hour 3,
UTC hour 22. -/
def scenOffset : Post :=
  ⟨"p2", "", none, none, "", none, none,
   some "2024-01-01T03:00:00+05:00", [], mkRat 0 1, false⟩

/-- Scenario 6 of the spec: the username matching both username patterns. -/
def scenJohn : Post :=
  ⟨"p3", "", none, some "hi", "JohnSmith123456", none, none, none, [], mkRat 0 1, false⟩

/-- Thirty whitespace characters (five distinct ones, six times each). -/
def wsMix : String :=
  "\t\n\x0b\x0c\r\t\n\x0b\x0c\r\t\n\x0b\x0c\r\t\n\x0b\x0c\r\t\n\x0b\x0c\r\t\n\x0b\x0c\r"

/-- An item with 51 characters of combined text: `wsMix`, a space and
nineteen letters (plus the separator space). -/
def simSelf : Post :=
  ⟨"pa", "", none, some (wsMix ++ " yyyyyyyyyyyyyyyyyyy"), "",
   none, none, none, [], mkRat 0 1, false⟩

/-- An item whose combined text (31 characters) is whitespace-only, yet its
ratio against `simSelf` is 62/82 > 0.75 (the whole text matches a suffix of
`simSelf`). -/
def simBlank : Post :=
  ⟨"pb", "", none, some wsMix, "", none, none, none, [], mkRat 0 1, false⟩

/-- A same-narrative, high-suspicion, dated post for the burst scenarios. -/
def burstP (id date : String) : Post :=
  ⟨id, "", none, none, "", none, none, some date, ["n"], mkRat 1 2, false⟩

/-- Scenario 3 of the spec: four same-narrative candidates at hours
0, 10, 40 and 70. -/
def burstCorpus : List Post :=
  [burstP "A" "2025-01-01T00:00:00Z", burstP "B" "2025-01-01T10:00:00Z",
   burstP "C" "2025-01-02T16:00:00Z", burstP "D" "2025-01-03T22:00:00Z"]

/-- Three-member burst corpus with member ids A, B, C. -/
def burstTrioABC : List Post :=
  [burstP "A" "2025-01-01T00:00:00Z", burstP "B" "2025-01-01T01:00:00Z",
   burstP "C" "2025-01-01T02:00:00Z"]

/-- The same corpus with the third member renamed to D: different member
set, identical burst record. -/
def burstTrioABD : List Post :=
  [burstP "A" "2025-01-01T00:00:00Z", burstP "B" "2025-01-01T01:00:00Z",
   burstP "D" "2025-01-01T02:00:00Z"]

/-- An item that enters the burst detector already carrying
`campaign_burst = true` but is no burst candidate (no narratives). -/
def stalePost : Post :=
  ⟨"S", "", none, none, "", none, none, some "2025-01-01T00:00:00Z", [], mkRat 0 1, true⟩

set_option maxRecDepth 3000

/-! ### Helper lemmas: rounding and the closed form of the scorer -/

theorem pyRoundInt_intCast (z : ℤ) : pyRoundInt (z : ℚ) = z := by
  unfold pyRoundInt
  simp [Int.floor_intCast]

theorem pyRound3_hundredths (m : ℕ) : pyRound3 ((m : ℚ) / 100) = (m : ℚ) / 100 := by
  unfold pyRound3
  have h : ((m : ℚ) / 100) * 1000 = ((10 * m : ℤ) : ℚ) := by push_cast; ring
  rw [h, pyRoundInt_intCast]
  push_cast
  ring

/-- The clamp and rounding of `score_account` in hundredths: clamping at 1.0
is `min _ 100` and the 3-decimal rounding is the identity. -/
theorem score_account_eq (p : Post) (all_posts : List Post) :
    score_account p all_posts =
      (((min (scoreParts p all_posts).1 100 : ℕ) : ℚ) / 100,
       (scoreParts p all_posts).2) := by
  have h1 : min (((scoreParts p all_posts).1 : ℚ) / 100) 1 =
      ((min (scoreParts p all_posts).1 100 : ℕ) : ℚ) / 100 := by
    rw [show (1 : ℚ) = 100 / 100 by norm_num,
      min_div_div_right (by norm_num : (0 : ℚ) ≤ 100)]
    norm_num [Nat.cast_min]
  simp only [score_account]
  rw [h1, pyRound3_hundredths]

/-! ### Helper lemmas: each block appends exactly its signal list -/

theorem ageBlock_eq (age : Option ℤ) (st : ℕ × List String) :
    ageBlock age st = (st.1 + ((ageList age).map sigWeightNum).sum, st.2 ++ ageList age) := by
  cases age with
  | none => simp [ageBlock, ageList]
  | some a =>
    by_cases h30 : a < 30
    · simp [ageBlock, ageList, h30, sigWeightNum]
    · by_cases h90 : a < 90 <;> simp [ageBlock, ageList, h30, h90, sigWeightNum]

theorem karmaBlock_eq (karma : Option ℤ) (st : ℕ × List String) :
    karmaBlock karma st =
      (st.1 + ((karmaList karma).map sigWeightNum).sum, st.2 ++ karmaList karma) := by
  cases karma with
  | none => simp [karmaBlock, karmaList]
  | some k =>
    by_cases h10 : k < 10
    · simp [karmaBlock, karmaList, h10, sigWeightNum]
    · by_cases h100 : k < 100 <;> simp [karmaBlock, karmaList, h10, h100, sigWeightNum]

theorem comboBlock_eq (age karma : Option ℤ) (st : ℕ × List String) :
    comboBlock age karma st =
      (st.1 + ((comboList age karma).map sigWeightNum).sum, st.2 ++ comboList age karma) := by
  cases age with
  | none => simp [comboBlock, comboList]
  | some a =>
    cases karma with
    | none => simp [comboBlock, comboList]
    | some k =>
      by_cases h : a < 90 ∧ k < 50 <;> simp [comboBlock, comboList, h, sigWeightNum]

theorem identityBlocks_eq (p : Post) (st : ℕ × List String) :
    identityBlocks p st =
      (st.1 + ((identityList p).map sigWeightNum).sum, st.2 ++ identityList p) := by
  unfold identityBlocks identityList
  by_cases h : p.source = "reddit"
  · simp only [h, if_true, ageBlock_eq, karmaBlock_eq, comboBlock_eq]
    simp [List.sum_append, List.append_assoc]
    ring
  · simp [h]

theorem temporalBlock_eq (p : Post) (st : ℕ × List String) :
    temporalBlock p st =
      (st.1 + ((tempList p).map sigWeightNum).sum, st.2 ++ tempList p) := by
  unfold temporalBlock tempList
  cases temporalParse p with
  | none => simp
  | some dt =>
    by_cases h : 2 ≤ dt.hour ∧ dt.hour ≤ 6 <;> simp [h, sigWeightNum]

theorem similarityBlock_eq (p : Post) (all_posts : List Post) (st : ℕ × List String) :
    similarityBlock p all_posts st =
      (st.1 + ((simList p all_posts).map sigWeightNum).sum,
       st.2 ++ simList p all_posts) := by
  unfold similarityBlock simList
  by_cases hg : (stripNonempty (combinedText p) && decide (50 < (combinedText p).length)) = true
  · simp only [hg, if_true]
    by_cases h3 : 3 ≤ simCount p all_posts
    · simp [h3, sigWeightNum]
    · by_cases h1 : 1 ≤ simCount p all_posts <;> simp [h3, h1, sigWeightNum]
  · simp [hg]

theorem usernameBlock_eq (author : String) (st : ℕ × List String) :
    usernameBlock author st =
      (st.1 + ((userList author).map sigWeightNum).sum, st.2 ++ userList author) := by
  unfold usernameBlock userList
  by_cases he : author = ""
  · simp [he]
  · by_cases hc : usernameCamel author.data
    · simp [he, hc, sigWeightNum]
    · by_cases hn : usernameNumericTail author.data <;> simp [he, hc, hn, sigWeightNum]

/-- The scorer state in closed form: the signal list is the concatenation of
the per-block lists and the raw score is the sum of their weights. -/
theorem scoreParts_eq (p : Post) (all_posts : List Post) :
    scoreParts p all_posts =
      (((allSignals p all_posts).map sigWeightNum).sum, allSignals p all_posts) := by
  unfold scoreParts allSignals
  rw [identityBlocks_eq, temporalBlock_eq, similarityBlock_eq, usernameBlock_eq]
  simp [List.sum_append, List.append_assoc]
  ring

/-! ### Helper lemmas: shapes and tiers of the block signal lists -/

theorem ageList_shape (age : Option ℤ) :
    ageList age = [] ∨ ageList age = ["very_new_account"] ∨ ageList age = ["new_account"] := by
  cases age with
  | none => simp [ageList]
  | some a => simp only [ageList]; split_ifs <;> simp

theorem karmaList_shape (karma : Option ℤ) :
    karmaList karma = [] ∨ karmaList karma = ["very_low_karma"] ∨
      karmaList karma = ["low_karma"] := by
  cases karma with
  | none => simp [karmaList]
  | some k => simp only [karmaList]; split_ifs <;> simp

theorem comboList_shape (age karma : Option ℤ) :
    comboList age karma = [] ∨ comboList age karma = ["new_and_low_karma"] := by
  cases age with
  | none => simp [comboList]
  | some a =>
    cases karma with
    | none => simp [comboList]
    | some k => simp only [comboList]; split_ifs <;> simp

theorem tempList_shape (p : Post) :
    tempList p = [] ∨ tempList p = ["odd_hour_post"] := by
  unfold tempList
  cases temporalParse p with
  | none => simp
  | some dt => simp only []; split_ifs <;> simp

theorem simList_shape (p : Post) (c : List Post) :
    simList p c = [] ∨ simList p c = ["copy_paste_campaign"] ∨
      simList p c = ["similar_to_other_posts"] := by
  unfold simList; split_ifs <;> simp

theorem userList_shape (author : String) :
    userList author = [] ∨ userList author = ["username_pattern"] ∨
      userList author = ["numeric_username_suffix"] := by
  unfold userList; split_ifs <;> simp

/-- Appending signal lists whose tiers strictly dominate keeps the tier
sequence strictly increasing. -/
theorem chainTierAppend {l m : List String}
    (hl : List.Chain' (· < ·) (l.map sigTier))
    (hm : List.Chain' (· < ·) (m.map sigTier))
    (h : ∀ x ∈ l, ∀ y ∈ m, sigTier x < sigTier y) :
    List.Chain' (· < ·) ((l ++ m).map sigTier) := by
  rw [List.map_append]
  refine List.Chain'.append hl hm ?_
  intro a ha b hb
  obtain ⟨_, ha2⟩ := List.mem_getLast?_eq_getLast ha
  obtain ⟨x, hx, hxa⟩ := List.mem_map.mp (ha2 ▸ List.getLast_mem _)
  have hb2 : b ∈ m.map sigTier := by
    cases hm' : (m.map sigTier).head? with
    | none => rw [hm'] at hb; cases hb
    | some y =>
      rw [hm'] at hb
      cases hb
      exact List.mem_of_mem_head? (by rw [hm']; rfl)
  obtain ⟨y, hy, hyb⟩ := List.mem_map.mp hb2
  rw [← hxa, ← hyb]
  exact h x hx y hy

/-- Every signal of the identity blocks: tier at most 2, a known name, and
the tier sequence strictly increasing. -/
theorem identityList_props (p : Post) :
    List.Chain' (· < ·) ((identityList p).map sigTier) ∧
      ∀ x ∈ identityList p, x ∈ signalNames ∧ sigTier x ≤ 2 := by
  unfold identityList
  split
  · rcases ageList_shape p.author_age_days with h1 | h1 | h1 <;>
      rcases karmaList_shape p.author_karma with h2 | h2 | h2 <;>
      rcases comboList_shape p.author_age_days p.author_karma with h3 | h3 <;>
      rw [h1, h2, h3] <;>
      exact ⟨by simp [sigTier, List.chain'_cons], by decide⟩
  · simp

/-- The full signal list: strictly increasing tiers, names from the fixed
vocabulary. -/
theorem allSignals_props (p : Post) (c : List Post) :
    List.Chain' (· < ·) ((allSignals p c).map sigTier) ∧
      ∀ x ∈ allSignals p c, x ∈ signalNames := by
  obtain ⟨hic, hib⟩ := identityList_props p
  have htemp : List.Chain' (· < ·) ((tempList p).map sigTier) ∧
      ∀ x ∈ tempList p, x ∈ signalNames ∧ sigTier x = 3 := by
    rcases tempList_shape p with h | h <;> rw [h] <;>
      exact ⟨by simp [sigTier, List.chain'_cons], by decide⟩
  have hsim : List.Chain' (· < ·) ((simList p c).map sigTier) ∧
      ∀ x ∈ simList p c, x ∈ signalNames ∧ sigTier x = 4 := by
    rcases simList_shape p c with h | h | h <;> rw [h] <;>
      exact ⟨by simp [sigTier, List.chain'_cons], by decide⟩
  have huser : List.Chain' (· < ·) ((userList p.author).map sigTier) ∧
      ∀ x ∈ userList p.author, x ∈ signalNames ∧ sigTier x = 5 := by
    rcases userList_shape p.author with h | h | h <;> rw [h] <;>
      exact ⟨by simp [sigTier, List.chain'_cons], by decide⟩
  unfold allSignals
  constructor
  · refine chainTierAppend (chainTierAppend (chainTierAppend hic htemp.1 ?_) hsim.1 ?_)
      huser.1 ?_
    · intro x hx y hy
      have := (hib x hx).2
      have := (htemp.2 y hy).2
      omega
    · intro x hx y hy
      rcases List.mem_append.mp hx with hx | hx
      · have := (hib x hx).2
        have := (hsim.2 y hy).2
        omega
      · have := (htemp.2 x hx).2
        have := (hsim.2 y hy).2
        omega
    · intro x hx y hy
      rcases List.mem_append.mp hx with hx | hx
      · rcases List.mem_append.mp hx with hx | hx
        · have := (hib x hx).2
          have := (huser.2 y hy).2
          omega
        · have := (htemp.2 x hx).2
          have := (huser.2 y hy).2
          omega
      · have := (hsim.2 x hx).2
        have := (huser.2 y hy).2
        omega
  · intro x hx
    rcases List.mem_append.mp hx with hx | hx
    · rcases List.mem_append.mp hx with hx | hx
      · rcases List.mem_append.mp hx with hx | hx
        · exact (hib x hx).1
        · exact (htemp.2 x hx).1
      · exact (hsim.2 x hx).1
    · exact (huser.2 x hx).1

/-- Rational weights sum to the rational of the hundredths sum. -/
theorem sum_sigWeight (l : List String) :
    (l.map sigWeight).sum = ((l.map sigWeightNum).sum : ℚ) / 100 := by
  induction l with
  | nil => simp
  | cons x xs ih =>
    simp only [List.map_cons, List.sum_cons, ih, sigWeight]
    push_cast
    ring

/-- The returned score is exactly the rounded clamp of the summed weights of
the returned signals. -/
theorem score_eq_round_sum (p : Post) (c : List Post) :
    (score_account p c).1 =
      pyRound3 (min (((score_account p c).2.map sigWeight).sum) 1) := by
  rw [score_account_eq, scoreParts_eq]
  simp only [sum_sigWeight]
  rw [show (1 : ℚ) = 100 / 100 by norm_num,
    min_div_div_right (by norm_num : (0 : ℚ) ≤ 100)]
  rw [show ((((allSignals p c).map sigWeightNum).sum : ℚ)) ⊓ 100 =
      ((min ((allSignals p c).map sigWeightNum).sum 100 : ℕ) : ℚ) by
    simp [Nat.cast_min]]
  rw [pyRound3_hundredths]

theorem sigWeight_eval (s : String) (n : ℕ) (h : sigWeightNum s = n) :
    sigWeight s = (n : ℚ) / 100 := by
  unfold sigWeight; rw [h]

/-- C2: for every post dict and corpus list, `score_account` returns a score
in `[0, 1]`, fixed by 3-decimal rounding, equal to the rounded clamp-to-1 of
the sum of the triggered signals' weights, all of which are non-negative (no
signal ever decreases the score). -/
theorem claim_C2 (p : Post) (c : List Post) :
    0 ≤ (score_account p c).1 ∧ (score_account p c).1 ≤ 1 ∧
    pyRound3 (score_account p c).1 = (score_account p c).1 ∧
    (score_account p c).1 =
      pyRound3 (min (((score_account p c).2.map sigWeight).sum) 1) ∧
    (∀ s ∈ (score_account p c).2, 0 ≤ sigWeight s) ∧
    0 ≤ ((score_account p c).2.map sigWeight).sum := by
  have hs := score_account_eq p c
  refine ⟨?_, ?_, ?_, score_eq_round_sum p c, ?_, ?_⟩
  · rw [hs]; positivity
  · rw [hs]
    rw [div_le_one (by norm_num : (0 : ℚ) < 100)]
    exact_mod_cast Nat.min_le_right _ 100
  · rw [hs]; exact pyRound3_hundredths _
  · intro s _; unfold sigWeight; positivity
  · apply List.sum_nonneg
    intro x hx
    obtain ⟨s, _, rfl⟩ := List.mem_map.mp hx
    unfold sigWeight; positivity

/-- C2 witness at a concrete post and corpus. -/
theorem claim_C2_witness :
    0 ≤ (score_account scenIdentity []).1 ∧ (score_account scenIdentity []).1 ≤ 1 :=
  ⟨(claim_C2 scenIdentity []).1, (claim_C2 scenIdentity []).2.1⟩

/-- C10: the signal list explains the score completely — it has no
duplicates, its blocks appear in the fixed evaluation order (tier 0 the
account-age signal, 1 the karma signal, 2 the combined signal, 3 the
odd-hour signal, 4 the similarity signal, 5 the username signal), every
entry is a known signal name, the score is the rounded clamp of the summed
weights, and the weight table is exactly the one of the source. -/
theorem claim_C10 (p : Post) (c : List Post) :
    (score_account p c).2.Nodup ∧
    List.Chain' (· < ·) ((score_account p c).2.map sigTier) ∧
    (∀ s ∈ (score_account p c).2, s ∈ signalNames) ∧
    (score_account p c).1 =
      pyRound3 (min (((score_account p c).2.map sigWeight).sum) 1) ∧
    sigWeight "very_new_account" = 35/100 ∧ sigWeight "new_account" = 20/100 ∧
    sigWeight "very_low_karma" = 25/100 ∧ sigWeight "low_karma" = 15/100 ∧
    sigWeight "new_and_low_karma" = 10/100 ∧ sigWeight "odd_hour_post" = 8/100 ∧
    sigWeight "copy_paste_campaign" = 35/100 ∧
    sigWeight "similar_to_other_posts" = 15/100 ∧
    sigWeight "username_pattern" = 10/100 ∧
    sigWeight "numeric_username_suffix" = 8/100 := by
  have h2 : (score_account p c).2 = allSignals p c := by
    rw [score_account_eq, scoreParts_eq]
  obtain ⟨hchain, hnames⟩ := allSignals_props p c
  refine ⟨?_, by rw [h2]; exact hchain, by rw [h2]; exact hnames,
    score_eq_round_sum p c, ?_⟩
  · rw [h2]
    have hp := (List.chain'_iff_pairwise).mp hchain
    rw [List.pairwise_map] at hp
    exact hp.imp fun h hab => absurd h (by rw [hab]; exact lt_irrefl _)
  · simp [sigWeight, sigWeightNum]

/-- C10 witness at a concrete post and corpus. -/
theorem claim_C10_witness : (score_account scenOddHour []).2.Nodup :=
  (claim_C10 scenOddHour []).1

/-! ### C8: determinism and corpus-order independence -/

theorem simCount_perm (p : Post) {c1 c2 : List Post} (h : c1.Perm c2) :
    simCount p c1 = simCount p c2 :=
  h.countP_eq _

/-- C8: the scorer is a pure function of the item and the corpus viewed as a
multiset: permuting the corpus changes nothing, and re-running it on the
identical input reproduces the identical output. -/
theorem claim_C8 (p : Post) (c1 c2 : List Post) (h : c1.Perm c2) :
    score_account p c1 = score_account p c2 ∧
      score_account p c1 = score_account p c1 := by
  refine ⟨?_, rfl⟩
  have hsim : ∀ st, similarityBlock p c1 st = similarityBlock p c2 st := by
    intro st
    unfold similarityBlock
    rw [simCount_perm p h]
  unfold score_account scoreParts
  rw [hsim]

/-- C8 witness: a concrete two-element corpus and its transposition. -/
theorem claim_C8_witness :
    score_account simSelf [simSelf, simBlank] =
      score_account simSelf [simBlank, simSelf] :=
  (claim_C8 simSelf [simSelf, simBlank] [simBlank, simSelf]
    (List.Perm.swap simBlank simSelf [])).1

/-! ### C6: direction classifier -/

/-- C6 (amended: the source returns `"neutral"` for empty text before either
signal is consulted): for nonempty text the precedence is exactly
critical-if-critical-and-not-pro, else pro-if-pro, else neutral; and the
switch-recommendation narrative label counts as a pro signal even with no
pro keyword in the text. -/
theorem claim_C6 (text : String) (narratives : List String) :
    (text ≠ "" →
      ((detect_direction text narratives = "critical" ↔
          hasCriticalSignal text = true ∧ hasProSignal text narratives = false) ∧
        (detect_direction text narratives = "pro" ↔
          hasProSignal text narratives = true) ∧
        (detect_direction text narratives = "neutral" ↔
          hasCriticalSignal text = false ∧ hasProSignal text narratives = false))) ∧
    (text = "" → detect_direction text narratives = "neutral") ∧
    (narratives.contains "switch-recommendation" = true →
      hasProSignal text narratives = true) := by
  refine ⟨?_, ?_, ?_⟩
  · intro he
    unfold detect_direction
    cases hc : hasCriticalSignal text <;>
      cases hp : hasProSignal text narratives <;>
      simp [he, hc, hp]
  · intro he
    unfold detect_direction
    simp [he]
  · intro h
    unfold hasProSignal
    rw [h]
    simp

/-- C6 witness: spec scenario 5 — a criticism text with no pro signal is
classified critical. -/
theorem claim_C6_witness :
    detect_direction "the app keeps crashing, cancelling my subscription" [] =
      "critical" := by
  have h := (claim_C6 "the app keeps crashing, cancelling my subscription" []).1
    (by decide)
  exact h.1.mpr ⟨by decide, by decide⟩

/-- C6 counterexample: with empty text and the switch-recommendation label a
pro signal is present and no critical signal is, yet the code returns
`"neutral"`, not `"pro"` as the claim requires. -/
theorem claim_C6_cex :
    hasProSignal "" ["switch-recommendation"] = true ∧
    hasCriticalSignal "" = false ∧
    detect_direction "" ["switch-recommendation"] = "neutral" ∧
    detect_direction "" ["switch-recommendation"] ≠ "pro" :=
  ⟨by decide, by decide, by decide, by decide⟩

/-! ### Membership characterizations of the signal list -/

theorem mem_allSignals_iff (x : String) (p : Post) (c : List Post) :
    x ∈ allSignals p c ↔
      x ∈ identityList p ∨ x ∈ tempList p ∨ x ∈ simList p c ∨
        x ∈ userList p.author := by
  simp [allSignals, List.mem_append, or_assoc]

theorem tier_tempList {p : Post} {x : String} (h : x ∈ tempList p) :
    sigTier x = 3 := by
  rcases tempList_shape p with hs | hs <;> rw [hs] at h
  · cases h
  · rw [List.mem_singleton] at h; subst h; rfl

theorem tier_simList {p : Post} {c : List Post} {x : String}
    (h : x ∈ simList p c) : sigTier x = 4 := by
  rcases simList_shape p c with hs | hs | hs <;> rw [hs] at h
  · cases h
  · rw [List.mem_singleton] at h; subst h; rfl
  · rw [List.mem_singleton] at h; subst h; rfl

theorem tier_userList {author x : String} (h : x ∈ userList author) :
    sigTier x = 5 := by
  rcases userList_shape author with hs | hs | hs <;> rw [hs] at h
  · cases h
  · rw [List.mem_singleton] at h; subst h; rfl
  · rw [List.mem_singleton] at h; subst h; rfl

/-- A signal of the username tier occurs in the output exactly when the
username block appended it. -/
theorem mem_allSignals_user {x : String} (hx : sigTier x = 5) (p : Post)
    (c : List Post) : x ∈ allSignals p c ↔ x ∈ userList p.author := by
  rw [mem_allSignals_iff]
  constructor
  · rintro (h | h | h | h)
    · have h2 := ((identityList_props p).2 x h).2
      omega
    · have h2 := tier_tempList h
      omega
    · have h2 := tier_simList h
      omega
    · exact h
  · intro h
    exact Or.inr (Or.inr (Or.inr h))

/-- A signal of the similarity tier occurs in the output exactly when the
similarity block appended it. -/
theorem mem_allSignals_sim {x : String} (hx : sigTier x = 4) (p : Post)
    (c : List Post) : x ∈ allSignals p c ↔ x ∈ simList p c := by
  rw [mem_allSignals_iff]
  constructor
  · rintro (h | h | h | h)
    · have h2 := ((identityList_props p).2 x h).2
      omega
    · have h2 := tier_tempList h
      omega
    · exact h
    · have h2 := tier_userList h
      omega
  · intro h
    exact Or.inr (Or.inr (Or.inl h))

/-- A signal of the temporal tier occurs in the output exactly when the
temporal block appended it. -/
theorem mem_allSignals_temp {x : String} (hx : sigTier x = 3) (p : Post)
    (c : List Post) : x ∈ allSignals p c ↔ x ∈ tempList p := by
  rw [mem_allSignals_iff]
  constructor
  · rintro (h | h | h | h)
    · have h2 := ((identityList_props p).2 x h).2
      omega
    · exact h
    · have h2 := tier_simList h
      omega
    · have h2 := tier_userList h
      omega
  · intro h
    exact Or.inr (Or.inl h)

/-- A signal of the identity tiers occurs in the output exactly when one of
the identity blocks appended it. -/
theorem mem_allSignals_id {x : String} (hx : sigTier x ≤ 2) (p : Post)
    (c : List Post) : x ∈ allSignals p c ↔ x ∈ identityList p := by
  rw [mem_allSignals_iff]
  constructor
  · rintro (h | h | h | h)
    · exact h
    · have h2 := tier_tempList h
      omega
    · have h2 := tier_simList h
      omega
    · have h2 := tier_userList h
      omega
  · intro h
    exact Or.inl h

/-- The signal list of the result is the concatenation of the block lists. -/
theorem signals_eq_allSignals (p : Post) (c : List Post) :
    (score_account p c).2 = allSignals p c := by
  rw [score_account_eq, scoreParts_eq]

/-! ### C9: username signals -/

theorem mem_userList_iff (x author : String) :
    x ∈ userList author ↔
      author ≠ "" ∧
        ((usernameCamel author.data = true ∧ x = "username_pattern") ∨
          (usernameCamel author.data = false ∧
            usernameNumericTail author.data = true ∧
            x = "numeric_username_suffix")) := by
  unfold userList
  split_ifs with h1 h2 h3 <;> simp_all

/-- C9: the username signals apply to every item regardless of source: the
camel-plus-digits pattern adds `username_pattern`, otherwise a 6-plus-digit
tail adds `numeric_username_suffix`; they are mutually exclusive with the
first pattern winning, and `"JohnSmith123456"` — matching both patterns —
yields only `username_pattern` and score 0.10. -/
theorem claim_C9 (p : Post) (c : List Post) :
    ("username_pattern" ∈ (score_account p c).2 ↔
      p.author ≠ "" ∧ usernameCamel p.author.data = true) ∧
    ("numeric_username_suffix" ∈ (score_account p c).2 ↔
      p.author ≠ "" ∧ usernameCamel p.author.data = false ∧
        usernameNumericTail p.author.data = true) ∧
    ¬("username_pattern" ∈ (score_account p c).2 ∧
      "numeric_username_suffix" ∈ (score_account p c).2) ∧
    usernameCamel "JohnSmith123456".data = true ∧
    usernameNumericTail "JohnSmith123456".data = true ∧
    score_account scenJohn [] = (1/10, ["username_pattern"]) := by
  have hmem : ∀ x, sigTier x = 5 →
      (x ∈ (score_account p c).2 ↔ x ∈ userList p.author) := by
    intro x hx
    rw [signals_eq_allSignals, mem_allSignals_user hx]
  have h1 := hmem "username_pattern" rfl
  have h2 := hmem "numeric_username_suffix" rfl
  refine ⟨?_, ?_, ?_, by decide, by decide, ?_⟩
  · rw [h1, mem_userList_iff]
    simp
  · rw [h2, mem_userList_iff]
    simp
  · rintro ⟨ha, hb⟩
    rw [h1, mem_userList_iff] at ha
    rw [h2, mem_userList_iff] at hb
    simp at ha hb
    rw [ha.2] at hb
    exact absurd hb.2.1 (by simp)
  · have hv : scoreParts scenJohn [] = (10, ["username_pattern"]) := by decide
    rw [score_account_eq, hv]
    norm_num

/-- C9 witness at the scenario-6 post. -/
theorem claim_C9_witness :
    "username_pattern" ∈ (score_account scenJohn []).2 := by
  have h := (claim_C9 scenJohn []).1
  exact h.mpr ⟨by decide, by decide⟩

/-! ### C3: identity signals -/

theorem identityList_not_reddit {p : Post} (h : p.source ≠ "reddit") :
    identityList p = [] := by
  unfold identityList
  rw [if_neg h]

theorem mem_identityList_age {p : Post} (hr : p.source = "reddit")
    {x : String} (hx : x = "very_new_account" ∨ x = "new_account") :
    x ∈ identityList p ↔ x ∈ ageList p.author_age_days := by
  unfold identityList
  rw [if_pos hr]
  rcases karmaList_shape p.author_karma with hk | hk | hk <;>
    rcases comboList_shape p.author_age_days p.author_karma with hc | hc <;>
    rcases hx with rfl | rfl <;> simp [hk, hc]

theorem mem_identityList_karma {p : Post} (hr : p.source = "reddit")
    {x : String} (hx : x = "very_low_karma" ∨ x = "low_karma") :
    x ∈ identityList p ↔ x ∈ karmaList p.author_karma := by
  unfold identityList
  rw [if_pos hr]
  rcases ageList_shape p.author_age_days with ha | ha | ha <;>
    rcases comboList_shape p.author_age_days p.author_karma with hc | hc <;>
    rcases hx with rfl | rfl <;> simp [ha, hc]

theorem mem_identityList_combo {p : Post} (hr : p.source = "reddit") :
    "new_and_low_karma" ∈ identityList p ↔
      "new_and_low_karma" ∈ comboList p.author_age_days p.author_karma := by
  unfold identityList
  rw [if_pos hr]
  rcases ageList_shape p.author_age_days with ha | ha | ha <;>
    rcases karmaList_shape p.author_karma with hk | hk | hk <;> simp [ha, hk]

theorem vna_mem_ageList (age : Option ℤ) :
    "very_new_account" ∈ ageList age ↔ ∃ a, age = some a ∧ a < 30 := by
  cases age with
  | none => simp [ageList]
  | some a => simp only [ageList]; split_ifs <;> simp_all

theorem na_mem_ageList (age : Option ℤ) :
    "new_account" ∈ ageList age ↔ ∃ a, age = some a ∧ 30 ≤ a ∧ a < 90 := by
  cases age with
  | none => simp [ageList]
  | some a =>
    simp only [ageList]
    split_ifs with h1 h2 <;> simp_all

theorem vlk_mem_karmaList (karma : Option ℤ) :
    "very_low_karma" ∈ karmaList karma ↔ ∃ k, karma = some k ∧ k < 10 := by
  cases karma with
  | none => simp [karmaList]
  | some k => simp only [karmaList]; split_ifs <;> simp_all

theorem lk_mem_karmaList (karma : Option ℤ) :
    "low_karma" ∈ karmaList karma ↔ ∃ k, karma = some k ∧ 10 ≤ k ∧ k < 100 := by
  cases karma with
  | none => simp [karmaList]
  | some k =>
    simp only [karmaList]
    split_ifs with h1 h2 <;> simp_all

theorem nalk_mem_comboList (age karma : Option ℤ) :
    "new_and_low_karma" ∈ comboList age karma ↔
      ∃ a k, age = some a ∧ karma = some k ∧ a < 90 ∧ k < 50 := by
  cases age with
  | none => simp [comboList]
  | some a =>
    cases karma with
    | none => simp [comboList]
    | some k => simp only [comboList]; split_ifs <;> simp_all

/-- C3: identity signals fire only for the metadata-carrying (reddit)
source, a missing field yields no signal for that field, the thresholds are
as specified, the amplifier stacks, and spec scenario 1 produces exactly
`{very_new_account, very_low_karma, new_and_low_karma}` with score 0.70. -/
theorem claim_C3 (p : Post) (c : List Post) :
    (p.source ≠ "reddit" →
      "very_new_account" ∉ (score_account p c).2 ∧
      "new_account" ∉ (score_account p c).2 ∧
      "very_low_karma" ∉ (score_account p c).2 ∧
      "low_karma" ∉ (score_account p c).2 ∧
      "new_and_low_karma" ∉ (score_account p c).2) ∧
    (p.source = "reddit" →
      ("very_new_account" ∈ (score_account p c).2 ↔
        ∃ a, p.author_age_days = some a ∧ a < 30) ∧
      ("new_account" ∈ (score_account p c).2 ↔
        ∃ a, p.author_age_days = some a ∧ 30 ≤ a ∧ a < 90) ∧
      ("very_low_karma" ∈ (score_account p c).2 ↔
        ∃ k, p.author_karma = some k ∧ k < 10) ∧
      ("low_karma" ∈ (score_account p c).2 ↔
        ∃ k, p.author_karma = some k ∧ 10 ≤ k ∧ k < 100) ∧
      ("new_and_low_karma" ∈ (score_account p c).2 ↔
        ∃ a k, p.author_age_days = some a ∧ p.author_karma = some k ∧
          a < 90 ∧ k < 50)) ∧
    score_account scenIdentity [] =
      (7/10, ["very_new_account", "very_low_karma", "new_and_low_karma"]) := by
  have hid : ∀ x, sigTier x ≤ 2 →
      (x ∈ (score_account p c).2 ↔ x ∈ identityList p) := by
    intro x hx
    rw [signals_eq_allSignals, mem_allSignals_id hx]
  refine ⟨?_, ?_, ?_⟩
  · intro hr
    have he := identityList_not_reddit hr
    refine ⟨?_, ?_, ?_, ?_, ?_⟩ <;>
      · rw [hid _ (by decide), he]
        simp
  · intro hr
    refine ⟨?_, ?_, ?_, ?_, ?_⟩
    · rw [hid _ (by decide), mem_identityList_age hr (Or.inl rfl), vna_mem_ageList]
    · rw [hid _ (by decide), mem_identityList_age hr (Or.inr rfl), na_mem_ageList]
    · rw [hid _ (by decide), mem_identityList_karma hr (Or.inl rfl), vlk_mem_karmaList]
    · rw [hid _ (by decide), mem_identityList_karma hr (Or.inr rfl), lk_mem_karmaList]
    · rw [hid _ (by decide), mem_identityList_combo hr, nalk_mem_comboList]
  · have hv : scoreParts scenIdentity [] =
        (70, ["very_new_account", "very_low_karma", "new_and_low_karma"]) := by
      decide
    rw [score_account_eq, hv]
    norm_num

/-- C3 witness at the scenario-1 post. -/
theorem claim_C3_witness :
    "very_new_account" ∈ (score_account scenIdentity []).2 := by
  have h := ((claim_C3 scenIdentity []).2.1 rfl).1
  exact h.mpr ⟨5, rfl, by norm_num⟩

/-! ### C5: temporal signal -/

theorem odd_mem_tempList (p : Post) :
    "odd_hour_post" ∈ tempList p ↔
      ∃ dt, temporalParse p = some dt ∧ 2 ≤ dt.hour ∧ dt.hour ≤ 6 := by
  unfold tempList
  cases h : temporalParse p with
  | none => simp
  | some dt =>
    simp only []
    split_ifs with hc <;> simp_all

/-- C5 (amended: the code tests the parsed value's own `hour` field — the
hour in the timestamp's embedded offset — rather than the UTC hour, and the
two differ exactly on non-UTC offsets): when the timestamp parses, the 0.08
`odd_hour_post` signal fires iff that hour lies in `[2, 6]`; when it does
not parse, the signal is skipped and everything else is computed unchanged
(the result equals that of the same item with no date at all). -/
theorem claim_C5 (p : Post) (c : List Post) :
    (∀ dt, temporalParse p = some dt →
      ("odd_hour_post" ∈ (score_account p c).2 ↔ 2 ≤ dt.hour ∧ dt.hour ≤ 6)) ∧
    (temporalParse p = none →
      "odd_hour_post" ∉ (score_account p c).2 ∧
      score_account p c = score_account { p with date := none } c) ∧
    (((scoreParts p c).1 : ℚ) / 100 =
      ((scoreParts { p with date := none } c).1 : ℚ) / 100 +
        (if "odd_hour_post" ∈ (score_account p c).2 then 8/100 else 0)) := by
  have hmem : "odd_hour_post" ∈ (score_account p c).2 ↔
      "odd_hour_post" ∈ tempList p := by
    rw [signals_eq_allSignals,
      mem_allSignals_temp (show sigTier "odd_hour_post" = 3 from rfl)]
  have hnil : tempList { p with date := none } = [] := rfl
  have hsplit : ∀ st, temporalBlock { p with date := none } st = st := by
    intro st
    unfold temporalBlock
    rfl
  have hparts : (scoreParts { p with date := none } c).1 =
      ((identityList p).map sigWeightNum).sum +
        ((simList p c).map sigWeightNum).sum +
        ((userList p.author).map sigWeightNum).sum := by
    rw [scoreParts_eq]
    show ((allSignals { p with date := none } c).map sigWeightNum).sum = _
    unfold allSignals
    rw [hnil]
    have h1 : identityList { p with date := none } = identityList p := rfl
    have h2 : simList { p with date := none } c = simList p c := rfl
    have h3 : userList ({ p with date := none } : Post).author =
        userList p.author := rfl
    rw [h1, h2, h3]
    simp [List.map_append, List.sum_append]
    ring
  have hpartsP : (scoreParts p c).1 =
      ((identityList p).map sigWeightNum).sum +
        ((tempList p).map sigWeightNum).sum +
        ((simList p c).map sigWeightNum).sum +
        ((userList p.author).map sigWeightNum).sum := by
    rw [scoreParts_eq]
    show ((allSignals p c).map sigWeightNum).sum = _
    unfold allSignals
    simp [List.map_append, List.sum_append]
    ring
  refine ⟨?_, ?_, ?_⟩
  · intro dt hdt
    rw [hmem, odd_mem_tempList]
    constructor
    · rintro ⟨dt2, hdt2, hh⟩
      rw [hdt] at hdt2
      cases hdt2
      exact hh
    · intro hh
      exact ⟨dt, hdt, hh⟩
  · intro hnone
    constructor
    · rw [hmem, odd_mem_tempList]
      rintro ⟨dt, hdt, _⟩
      rw [hnone] at hdt
      cases hdt
    · have htp : ∀ st, temporalBlock p st = st := by
        intro st
        unfold temporalBlock
        rw [hnone]
      unfold score_account scoreParts
      rw [htp, hsplit]
      rfl
  · rcases tempList_shape p with hs | hs
    · have hnm : "odd_hour_post" ∉ (score_account p c).2 := by
        rw [hmem, hs]
        simp
      rw [if_neg hnm, hpartsP, hparts, hs]
      simp
    · have hm : "odd_hour_post" ∈ (score_account p c).2 := by
        rw [hmem, hs]
        simp
      rw [if_pos hm, hpartsP, hparts, hs]
      have h8 : sigWeightNum "odd_hour_post" = 8 := rfl
      simp [h8]
      ring

/-- C5 witness: spec scenario 2 — posting hour 4 adds the odd-hour signal. -/
theorem claim_C5_witness :
    "odd_hour_post" ∈ (score_account scenOddHour []).2 := by
  have h := (claim_C5 scenOddHour []).1 ⟨2025, 5, 1, 4, 0, 0, 0, some 0⟩ (by decide)
  exact h.mpr (by decide)

/-- C5 counterexample: a timestamp with offset `+05:00` parses to local hour
3 (so the code adds `odd_hour_post`), but its UTC hour is 22, outside
`[2, 6]` — the claim's "UTC hour" reading is false on the code. -/
theorem claim_C5_cex :
    temporalParse scenOffset = some ⟨2024, 1, 1, 3, 0, 0, 0, some 300⟩ ∧
    utcHour ⟨2024, 1, 1, 3, 0, 0, 0, some 300⟩ = 22 ∧
    "odd_hour_post" ∈ (score_account scenOffset []).2 ∧
    ¬(2 ≤ utcHour ⟨2024, 1, 1, 3, 0, 0, 0, some 300⟩ ∧
      utcHour ⟨2024, 1, 1, 3, 0, 0, 0, some 300⟩ ≤ 6) :=
  ⟨by decide, by decide, by decide, by decide⟩

/-! ### C4: near-duplicate signal -/

theorem ratioGT_iff (a b : List Char) :
    ratioGT a b = true ↔ (3/4 : ℚ) < ratioQ a b := by
  unfold ratioGT ratioQ
  rw [decide_eq_true_iff]
  rcases Nat.eq_zero_or_pos (a.length + b.length) with hL | hL
  · obtain ⟨ha, hb⟩ := Nat.add_eq_zero.mp hL
    obtain rfl := List.length_eq_zero.mp ha
    obtain rfl := List.length_eq_zero.mp hb
    have hm : smMatchSum ([] : List Char) ([] : List Char) = 0 := by decide
    rw [hm]
    norm_num
  · have hQ : (0 : ℚ) < (a.length : ℚ) + (b.length : ℚ) := by exact_mod_cast hL
    rw [div_lt_div_iff₀ (by norm_num) hQ]
    constructor
    · intro h
      have h2 : (3 * (a.length + b.length) : ℚ) < (8 * smMatchSum a b : ℚ) := by
        exact_mod_cast h
      nlinarith [h2]
    · intro h
      have h2 : (3 : ℚ) * ((a.length : ℚ) + (b.length : ℚ)) <
          8 * (smMatchSum a b : ℚ) := by nlinarith [h]
      exact_mod_cast h2

theorem copy_mem_simList (p : Post) (c : List Post) :
    "copy_paste_campaign" ∈ simList p c ↔
      (stripNonempty (combinedText p) = true ∧ 50 < (combinedText p).length ∧
        3 ≤ simCount p c) := by
  unfold simList
  split_ifs with h1 h2 h3 <;>
    simp_all [Bool.and_eq_true, decide_eq_true_iff]

theorem similar_mem_simList (p : Post) (c : List Post) :
    "similar_to_other_posts" ∈ simList p c ↔
      (stripNonempty (combinedText p) = true ∧ 50 < (combinedText p).length ∧
        1 ≤ simCount p c ∧ simCount p c < 3) := by
  unfold simList
  split_ifs with h1 h2 h3 <;>
    simp_all [Bool.and_eq_true, decide_eq_true_iff]

/-- C4 (amended: the count excludes, besides the item itself (by id), every
other item whose combined text is whitespace-only — the source skips those
before computing the ratio): evaluated only under the >50-character guard;
count ≥ 3 gives `copy_paste_campaign` (+0.35), count 1–2 gives
`similar_to_other_posts` (+0.15), mutually exclusive with the higher tier
winning; and the counted predicate is exactly id-distinct, non-blank, ratio
above 0.75. -/
theorem claim_C4 (p : Post) (c : List Post) :
    (¬(stripNonempty (combinedText p) = true ∧ 50 < (combinedText p).length) →
      "copy_paste_campaign" ∉ (score_account p c).2 ∧
      "similar_to_other_posts" ∉ (score_account p c).2) ∧
    (stripNonempty (combinedText p) = true ∧ 50 < (combinedText p).length →
      ("copy_paste_campaign" ∈ (score_account p c).2 ↔ 3 ≤ simCount p c) ∧
      ("similar_to_other_posts" ∈ (score_account p c).2 ↔
        1 ≤ simCount p c ∧ simCount p c < 3) ∧
      ¬("copy_paste_campaign" ∈ (score_account p c).2 ∧
        "similar_to_other_posts" ∈ (score_account p c).2)) ∧
    simCount p c = (c.filter (fun o => !(o.id == p.id) &&
        stripNonempty (combinedText o) &&
        ratioGT ((combinedText p).data.take 300)
          ((combinedText o).data.take 300))).length ∧
    (∀ o : Post, similarPred p (combinedText p) o = true ↔
      (o.id ≠ p.id ∧ stripNonempty (combinedText o) = true ∧
        (3/4 : ℚ) < ratioQ ((combinedText p).data.take 300)
          ((combinedText o).data.take 300))) := by
  have hcopy : "copy_paste_campaign" ∈ (score_account p c).2 ↔
      "copy_paste_campaign" ∈ simList p c := by
    rw [signals_eq_allSignals,
      mem_allSignals_sim (show sigTier "copy_paste_campaign" = 4 from rfl)]
  have hsimilar : "similar_to_other_posts" ∈ (score_account p c).2 ↔
      "similar_to_other_posts" ∈ simList p c := by
    rw [signals_eq_allSignals,
      mem_allSignals_sim (show sigTier "similar_to_other_posts" = 4 from rfl)]
  refine ⟨?_, ?_, ?_, ?_⟩
  · intro hg
    constructor
    · rw [hcopy, copy_mem_simList]
      tauto
    · rw [hsimilar, similar_mem_simList]
      tauto
  · intro hg
    refine ⟨?_, ?_, ?_⟩
    · rw [hcopy, copy_mem_simList]
      tauto
    · rw [hsimilar, similar_mem_simList]
      tauto
    · rw [hcopy, copy_mem_simList, hsimilar, similar_mem_simList]
      rintro ⟨⟨_, _, h3⟩, ⟨_, _, _, hlt⟩⟩
      omega
  · unfold simCount similarPred
    rw [List.countP_eq_length_filter]
  · intro o
    unfold similarPred
    rw [Bool.and_assoc]
    simp only [Bool.and_eq_true, Bool.not_eq_true', beq_eq_false_iff_ne]
    rw [ratioGT_iff]

/-- C4 witness: the guard fails on a short text, so no similarity signal. -/
theorem claim_C4_witness :
    "copy_paste_campaign" ∉ (score_account scenIdentity []).2 :=
  ((claim_C4 scenIdentity []).1 (by intro h; exact absurd h.2 (by decide))).1

/-- C4 counterexample: `simBlank` is id-distinct from `simSelf` with ratio
31/41 > 0.75, so the claim counts it (count 1 ⇒ `similar_to_other_posts`,
+0.15), but its combined text is whitespace-only, so the source skips it:
no signal, score 0. -/
theorem claim_C4_cex :
    stripNonempty (combinedText simSelf) = true ∧
    50 < (combinedText simSelf).length ∧
    simBlank.id ≠ simSelf.id ∧
    (3/4 : ℚ) < ratioQ ((combinedText simSelf).data.take 300)
      ((combinedText simBlank).data.take 300) ∧
    claimSimilarCount simSelf [simBlank] = 1 ∧
    (score_account simSelf [simBlank]).2 = [] ∧
    (score_account simSelf [simBlank]).1 = 0 := by
  refine ⟨by decide, by decide, by decide, ?_, by decide, by decide, ?_⟩
  · exact (ratioGT_iff _ _).mp (by decide)
  · have hv : scoreParts simSelf [simBlank] = (0, []) := by decide
    rw [score_account_eq, hv]
    norm_num

/-! ### Helper lemmas: the burst detector fold -/

theorem flagPost_nil (p : Post) : flagPost [] p = p := rfl

theorem flagPost_id (ids : List String) (p : Post) : (flagPost ids p).id = p.id := by
  unfold flagPost
  split_ifs <;> rfl

theorem flagPost_comp (ids1 ids2 : List String) (p : Post) :
    flagPost ids2 (flagPost ids1 p) = flagPost (ids1 ++ ids2) p := by
  unfold flagPost
  by_cases h1 : ids1.contains p.id = true <;>
    by_cases h2 : ids2.contains p.id = true <;>
    simp_all

theorem flagPost_burst (ids : List String) (p : Post) :
    (flagPost ids p).campaign_burst = (p.campaign_burst || ids.contains p.id) := by
  unfold flagPost
  split_ifs with h <;> simp_all

theorem emitAt_narrative {dated : List (PyDatetime × Post)} {n : String}
    {rec : Burst} {ids : List String} (h : emitAt dated n = some (rec, ids)) :
    rec.narrative = n ∧
      ∃ i, firstWindow (narrSubset dated n) = some i ∧
        rec = burstAt n (narrSubset dated n) i ∧
        ids = windowIds (narrSubset dated n) i := by
  simp only [emitAt] at h
  split_ifs at h with hlen
  cases hw : firstWindow (narrSubset dated n) with
  | none => rw [hw] at h; simp at h
  | some i =>
    rw [hw] at h
    simp only [Option.some.injEq, Prod.mk.injEq] at h
    obtain ⟨h1, h2⟩ := h
    subst h1
    subst h2
    exact ⟨rfl, i, rfl, rfl, rfl⟩

/-- The narrative loop in closed form: with pairwise-distinct narratives none
of which is already recorded, the fold appends each narrative's emission (if
any) and flags the union of the emitted member ids. -/
theorem foldl_stepNarr (dated : List (PyDatetime × Post)) :
    ∀ (L : List String) (bs : List Burst) (ps : List Post),
      L.Nodup → (∀ b ∈ bs, b.narrative ∉ L) →
      L.foldl (stepNarr dated) (bs, ps) =
        (bs ++ L.filterMap (fun n => (emitAt dated n).map Prod.fst),
         ps.map (flagPost
           (L.flatMap (fun n => ((emitAt dated n).map Prod.snd).getD [])))) := by
  intro L
  induction L with
  | nil =>
    intro bs ps _ _
    simp [List.foldl_nil, List.map_congr_left fun p _ => flagPost_nil p]
  | cons n L ih =>
    intro bs ps hnd hbs
    rw [List.foldl_cons]
    have hnd2 := (List.nodup_cons.mp hnd).2
    have hnL : n ∉ L := (List.nodup_cons.mp hnd).1
    cases he : emitAt dated n with
    | none =>
      have hstep : stepNarr dated (bs, ps) n = (bs, ps) := by
        unfold stepNarr
        rw [he]
      rw [hstep, ih bs ps hnd2 (fun b hb => fun hL => hbs b hb (List.mem_cons_of_mem _ hL))]
      simp [List.filterMap_cons, he]
    | some recids =>
      obtain ⟨rec, ids⟩ := recids
      obtain ⟨hrn, _⟩ := emitAt_narrative he
      have hna : (bs.any fun b => b.narrative == n && b.start == rec.start) = false := by
        rw [List.any_eq_false]
        intro b hb
        have := hbs b hb
        simp only [List.mem_cons, not_or] at this
        simp [this.1]
      have hstep : stepNarr dated (bs, ps) n =
          (bs ++ [rec], ps.map (flagPost ids)) := by
        unfold stepNarr
        rw [he]
        simp only [hna]
        rfl
      rw [hstep]
      rw [ih (bs ++ [rec]) (ps.map (flagPost ids)) hnd2 ?_]
      · rw [Prod.mk.injEq]
        constructor
        · simp [List.filterMap_cons, he, List.append_assoc]
        · rw [List.map_map]
          apply List.map_congr_left
          intro p _
          show flagPost _ (flagPost ids p) = _
          rw [flagPost_comp]
          congr 1
          simp [List.flatMap_cons, he]
      · intro b hb
        rcases List.mem_append.mp hb with hb | hb
        · exact fun hL => hbs b hb (List.mem_cons_of_mem _ hL)
        · rw [List.mem_singleton] at hb
          subst hb
          rw [hrn]
          exact hnL

/-- The function `detect_campaign_bursts` in closed form: per-narrative emissions plus a
single flagging pass over the posts. -/
theorem detect_eq (posts : List Post) :
    detect_campaign_bursts posts =
      ((narrativesOf (sortedDated posts)).filterMap
         (fun n => (emitAt (sortedDated posts) n).map Prod.fst),
       posts.map (flagPost (runFlaggedIds posts))) := by
  unfold detect_campaign_bursts runFlaggedIds
  rw [foldl_stepNarr (sortedDated posts) (narrativesOf (sortedDated posts)) [] posts
    (List.nodup_dedup _) (by intro b hb; cases hb)]
  simp

/-- Searching `range N` with `find?` returns the least index satisfying the predicate
(the loop-with-`break` of the source). -/
theorem find?_range_least {p : ℕ → Bool} {N i : ℕ}
    (h : (List.range N).find? p = some i) :
    i < N ∧ p i = true ∧ ∀ j < i, p j = false := by
  induction N with
  | zero => simp at h
  | succ N ih =>
    rw [List.range_succ, List.find?_append] at h
    cases hf : (List.range N).find? p with
    | some i0 =>
      rw [hf] at h
      simp only [Option.or_some] at h
      cases h
      obtain ⟨h1, h2, h3⟩ := ih hf
      exact ⟨Nat.lt_succ_of_lt h1, h2, h3⟩
    | none =>
      rw [hf] at h
      simp only [Option.none_or] at h
      have hmin : ∀ j < N, p j = false := by
        intro j hj
        have := List.find?_eq_none.mp hf j (List.mem_range.mpr hj)
        simpa using this
      simp only [List.find?_singleton] at h
      split_ifs at h with hp
      cases h
      exact ⟨Nat.lt_succ_self _, hp, hmin⟩

/-- Filtering the per-narrative emissions by one narrative keeps exactly
that narrative's emission. -/
theorem filter_emit (dated : List (PyDatetime × Post)) (n : String) :
    ∀ L : List String, L.Nodup →
      (L.filterMap (fun m => (emitAt dated m).map Prod.fst)).filter
          (fun b => b.narrative == n) =
        if n ∈ L then ((emitAt dated n).map Prod.fst).toList else [] := by
  intro L
  induction L with
  | nil => simp
  | cons m L ih =>
    intro hnd
    have hnd2 := (List.nodup_cons.mp hnd).2
    have hm : m ∉ L := (List.nodup_cons.mp hnd).1
    rw [List.filterMap_cons]
    cases he : emitAt dated m with
    | none =>
      simp only [Option.map_none']
      rw [ih hnd2]
      by_cases hn : n = m
      · subst hn
        rw [if_neg hm, if_pos (List.mem_cons_self _ _), he]
        rfl
      · simp [List.mem_cons, hn]
    | some recids =>
      obtain ⟨rec, ids⟩ := recids
      obtain ⟨hrn, _⟩ := emitAt_narrative he
      simp only [Option.map_some']
      rw [List.filter_cons]
      by_cases hn : n = m
      · subst hn
        rw [if_pos (by simp [hrn]), ih hnd2, if_neg hm,
          if_pos (List.mem_cons_self _ _), he]
        rfl
      · rw [if_neg (by simp [hrn]; exact fun hc => hn hc.symm), ih hnd2]
        simp [List.mem_cons, hn]

/-! ### C7: burst flags -/

/-- C7 (amended: the code never clears the flag, so an item that enters with
`campaign_burst = true` keeps it): after a run, an item's flag is its entry
flag OR-ed with membership of its id in the ids flagged by this run's
emitted bursts. -/
theorem claim_C7 (posts : List Post) :
    (detect_campaign_bursts posts).2 =
      posts.map (flagPost (runFlaggedIds posts)) ∧
    (detect_campaign_bursts posts).2.length = posts.length ∧
    ∀ i, i < posts.length →
      ((detect_campaign_bursts posts).2.getD i dfltPost).campaign_burst =
        ((posts.getD i dfltPost).campaign_burst ||
          (runFlaggedIds posts).contains ((posts.getD i dfltPost).id)) := by
  have hd := detect_eq posts
  refine ⟨by rw [hd], by rw [hd]; simp, ?_⟩
  intro i hi
  rw [hd]
  have hgd : (posts.getD i dfltPost) = posts[i] := by
    rw [List.getD_eq_getElem?_getD, List.getElem?_eq_getElem hi]
    rfl
  have h1 : ((posts.map (flagPost (runFlaggedIds posts))).getD i dfltPost) =
      flagPost (runFlaggedIds posts) posts[i] := by
    rw [List.getD_eq_getElem?_getD, List.getElem?_map,
      List.getElem?_eq_getElem hi]
    rfl
  rw [h1, hgd, flagPost_burst]

/-- C7 witness at the scenario-3 corpus. -/
theorem claim_C7_witness :
    ((detect_campaign_bursts burstCorpus).2.getD 0 dfltPost).campaign_burst =
      ((burstCorpus.getD 0 dfltPost).campaign_burst ||
        (runFlaggedIds burstCorpus).contains ((burstCorpus.getD 0 dfltPost).id)) :=
  (claim_C7 burstCorpus).2.2 0 (by decide)

/-- C7 counterexample: an item entering with `campaign_burst = true` and no
narrative labels stays flagged although the run emits no burst at all — the
flag is not recomputed fresh, refuting the claimed iff. -/
theorem claim_C7_cex :
    (detect_campaign_bursts [stalePost]).1 = [] ∧
    runFlaggedIds [stalePost] = [] ∧
    ((detect_campaign_bursts [stalePost]).2.getD 0 dfltPost).campaign_burst = true :=
  ⟨by decide, by decide, by decide⟩

/-! ### C1: the burst detector -/

theorem windowAt_length_le (narr : List (PyDatetime × Post)) (i : ℕ) :
    (windowAt narr i).length ≤ narr.length := by
  unfold windowAt
  exact List.length_filter_le _ _

/-- C1 (amended: the emitted record holds `{narrative, count, start, end,
hours_span}` — the member ids are not part of the record, they are only
written back as flags; see `burstAt` for the record built): candidates are
exactly the labelled, high-suspicion, parseably-dated items; they are
processed in ascending timestamp order; per narrative present among
candidates the 72-hour window slides in index order, the first index whose
window holds at least 3 items emits exactly one record and flags its
members, and a narrative with no qualifying window emits nothing — so at
most one burst per narrative per run. -/
theorem claim_C1 (posts : List Post) :
    (∀ x : PyDatetime × Post, x ∈ sortedDated posts ↔
      (x.2 ∈ posts ∧ x.2.narratives ≠ [] ∧ BOT_THRESHOLD ≤ x.2.bot_score ∧
        x.2.date.getD "" ≠ "" ∧ parseDate (x.2.date.getD "") = some x.1)) ∧
    List.Sorted instLE (sortedDated posts) ∧
    (∀ n, n ∈ narrativesOf (sortedDated posts) ↔
      ∃ x ∈ sortedDated posts, n ∈ x.2.narratives) ∧
    (∀ b ∈ (detect_campaign_bursts posts).1,
      b.narrative ∈ narrativesOf (sortedDated posts)) ∧
    (∀ n, n ∈ narrativesOf (sortedDated posts) →
      ((∃ i, i < (narrSubset (sortedDated posts) n).length ∧
          3 ≤ (windowAt (narrSubset (sortedDated posts) n) i).length) →
        ∃ i, i < (narrSubset (sortedDated posts) n).length ∧
          3 ≤ (windowAt (narrSubset (sortedDated posts) n) i).length ∧
          (∀ j < i, (windowAt (narrSubset (sortedDated posts) n) j).length < 3) ∧
          (detect_campaign_bursts posts).1.filter (fun b => b.narrative == n) =
            [burstAt n (narrSubset (sortedDated posts) n) i] ∧
          (∀ q ∈ (detect_campaign_bursts posts).2,
            q.id ∈ windowIds (narrSubset (sortedDated posts) n) i →
              q.campaign_burst = true)) ∧
      ((∀ i, i < (narrSubset (sortedDated posts) n).length →
          (windowAt (narrSubset (sortedDated posts) n) i).length < 3) →
        (detect_campaign_bursts posts).1.filter (fun b => b.narrative == n) = [])) ∧
    (∀ (narr : List (PyDatetime × Post)) (i : ℕ) (x : PyDatetime × Post),
      x ∈ windowAt narr i →
      instantMicros (narr.getD i (pyEpoch, dfltPost)).1 ≤ instantMicros x.1 ∧
      instantMicros x.1 ≤
        instantMicros (narr.getD i (pyEpoch, dfltPost)).1 + 259200000000) := by
  have hdet1 : (detect_campaign_bursts posts).1 =
      (narrativesOf (sortedDated posts)).filterMap
        (fun n => (emitAt (sortedDated posts) n).map Prod.fst) := by
    rw [detect_eq]
  have hdet2 : (detect_campaign_bursts posts).2 =
      posts.map (flagPost (runFlaggedIds posts)) := by
    rw [detect_eq]
  refine ⟨?_, ?_, ?_, ?_, ?_, ?_⟩
  · rintro ⟨dt0, p0⟩
    unfold sortedDated
    rw [List.mem_insertionSort]
    unfold datedCandidates
    rw [List.mem_filterMap]
    constructor
    · rintro ⟨p, hp, hmap⟩
      rw [List.mem_filter] at hp
      rw [Option.map_eq_some'] at hmap
      obtain ⟨dt, hparse, heq⟩ := hmap
      cases heq
      have hf := hp.2
      simp only [candidateFilter, Bool.and_eq_true, Bool.not_eq_true',
        beq_eq_false_iff_ne, decide_eq_true_iff] at hf
      exact ⟨hp.1, hf.1.1, hf.1.2, hf.2, hparse⟩
    · rintro ⟨hmem, hnarr, hscore, hdate, hparse⟩
      refine ⟨p0, List.mem_filter.mpr ⟨hmem, ?_⟩, ?_⟩
      · simp only [candidateFilter, Bool.and_eq_true, Bool.not_eq_true',
          beq_eq_false_iff_ne, decide_eq_true_iff]
        exact ⟨⟨hnarr, hscore⟩, hdate⟩
      · rw [hparse]
        rfl
  · unfold sortedDated
    exact List.sorted_insertionSort instLE _
  · intro n
    unfold narrativesOf
    rw [List.mem_dedup, List.mem_flatMap]
  · intro b hb
    rw [hdet1] at hb
    rw [List.mem_filterMap] at hb
    obtain ⟨m, hm, hmap⟩ := hb
    rw [Option.map_eq_some'] at hmap
    obtain ⟨⟨rec, ids⟩, hemit, heq⟩ := hmap
    obtain ⟨hrn, _⟩ := emitAt_narrative hemit
    rw [← heq]
    rw [hrn]
    exact hm
  · intro n hn
    constructor
    · rintro ⟨i, hi, hq⟩
      have hsome : (firstWindow (narrSubset (sortedDated posts) n)).isSome := by
        unfold firstWindow
        rw [List.find?_isSome]
        exact ⟨i, List.mem_range.mpr hi, by simpa using hq⟩
      obtain ⟨i0, hfw⟩ := Option.isSome_iff_exists.mp hsome
      have hfw2 : (List.range (narrSubset (sortedDated posts) n).length).find?
          (fun i => decide (3 ≤ (windowAt (narrSubset (sortedDated posts) n) i).length)) =
          some i0 := hfw
      obtain ⟨hi0, hp0, hmin⟩ := find?_range_least hfw2
      have hq0 : 3 ≤ (windowAt (narrSubset (sortedDated posts) n) i0).length := by
        simpa using hp0
      have hguard : ¬ (narrSubset (sortedDated posts) n).length < 3 := by
        have := le_trans hq0 (windowAt_length_le _ i0)
        omega
      have hemit : emitAt (sortedDated posts) n =
          some (burstAt n (narrSubset (sortedDated posts) n) i0,
            windowIds (narrSubset (sortedDated posts) n) i0) := by
        simp only [emitAt]
        rw [if_neg hguard, hfw]
      refine ⟨i0, hi0, hq0, ?_, ?_, ?_⟩
      · intro j hj
        have := hmin j hj
        simp only [decide_eq_false_iff_not, not_le] at this
        exact this
      · have hnodup : (narrativesOf (sortedDated posts)).Nodup := by
          unfold narrativesOf
          exact List.nodup_dedup _
        rw [hdet1,
          filter_emit (sortedDated posts) n (narrativesOf (sortedDated posts)) hnodup,
          if_pos hn, hemit]
        rfl
      · intro q hq2 hid
        rw [hdet2] at hq2
        obtain ⟨p0, hp0mem, rfl⟩ := List.mem_map.mp hq2
        rw [flagPost_id] at hid
        rw [flagPost_burst]
        have hcont : (runFlaggedIds posts).contains p0.id = true := by
          simp only [List.contains_iff_exists_mem_beq]
          refine ⟨p0.id, ?_, by simp⟩
          unfold runFlaggedIds
          rw [List.mem_flatMap]
          refine ⟨n, hn, ?_⟩
          rw [hemit]
          exact hid
        rw [hcont]
        simp
    · intro hall
      have hnone : emitAt (sortedDated posts) n = none := by
        simp only [emitAt]
        split_ifs with hlen
        · rfl
        · have hfw : firstWindow (narrSubset (sortedDated posts) n) = none := by
            unfold firstWindow
            rw [List.find?_eq_none]
            intro j hj
            have := hall j (List.mem_range.mp hj)
            simp only [decide_eq_true_iff]
            omega
          rw [hfw]
      have hnodup : (narrativesOf (sortedDated posts)).Nodup := by
        unfold narrativesOf
        exact List.nodup_dedup _
      rw [hdet1,
        filter_emit (sortedDated posts) n (narrativesOf (sortedDated posts)) hnodup,
        if_pos hn, hnone]
      rfl
  · intro narr i x hx
    simp only [windowAt] at hx
    rw [List.mem_filter] at hx
    have := hx.2
    simp only [Bool.and_eq_true, decide_eq_true_iff] at this
    exact this

/-- C1 witness: spec scenario 3 — four same-narrative candidates within 72h
produce exactly one burst for that narrative. -/
theorem claim_C1_witness :
    ((detect_campaign_bursts burstCorpus).1.filter
      (fun b => b.narrative == "n")).length = 1 := by
  have hn : "n" ∈ narrativesOf (sortedDated burstCorpus) := by decide
  have hex : ∃ i, i < (narrSubset (sortedDated burstCorpus) "n").length ∧
      3 ≤ (windowAt (narrSubset (sortedDated burstCorpus) "n") i).length :=
    ⟨0, by decide, by decide⟩
  obtain ⟨i, _, _, _, hfil, _⟩ :=
    ((claim_C1 burstCorpus).2.2.2.2.1 "n" hn).1 hex
  rw [hfil]
  rfl

/-- C1 counterexample: two corpora whose burst member sets differ (ids
`A,B,C` versus `A,B,D`) produce identical burst-record lists — so the
emitted record cannot contain the member ids, contradicting the claimed
record contents `{narrative, member ids, start, end, count}`. -/
theorem claim_C1_cex :
    (detect_campaign_bursts burstTrioABC).1 =
      (detect_campaign_bursts burstTrioABD).1 ∧
    (detect_campaign_bursts burstTrioABC).1.length = 1 ∧
    runFlaggedIds burstTrioABC = ["A", "B", "C"] ∧
    runFlaggedIds burstTrioABD = ["A", "B", "D"] ∧
    runFlaggedIds burstTrioABC ≠ runFlaggedIds burstTrioABD :=
  ⟨rfl, by decide, by decide, by decide, by decide⟩
